import Mathlib

/-!
Verification development for hakana's static-analysis data-flow core.

Shallow embedding of:
  * `src/code_info/data_flow/graph.rs` (the data-flow graph and its operations),
  * `src/analyzer/dataflow/unused_variable_analyzer.rs` (the bounded unused-variable search),
  * `src/code_info/ttype/type_expander.rs` (the type expander with shape-field taint injection),
  * `src/orchestrator/diff.rs` (the incremental diff engine).

Modelling conventions:
  * Rust `FxHashMap` fields are embedded as total functions with an "empty" default
    (`Option`-valued for node maps, `[]`-valued for edge/set maps); an absent key and an
    empty entry are indistinguishable, which matches every use site in the sources.
  * Rust `FxHashSet`/`FxHashMap` iteration order is unspecified; the embedding determinizes
    it to insertion order (`setInsert` / `assocInsert` keep first-insertion positions).
  * Machine integers (`u32`) are embedded as `Nat`, with explicit wrap-around (`% 2^32`)
    where the source performs an `as u32` cast.
  * Code that can panic (`panic!`, `todo!`, `unwrap` on `None`) is embedded in `Option`,
    with `none` standing for the panic.
  * Types declared in repository modules that are not under `src/` (`node.rs`,
    `t_atomic.rs`, `diff.rs` of `code_info`, the string interner) are modelled from the
    spec's data-model section; each such definition carries a doc comment saying so.
-/

set_option linter.unusedVariables false

namespace Hakana

/-- Modelled from the spec: the string interner (component C1, not under `src/`) maps
names to dense integer ids; an interned id is just a `Nat`. -/
abbrev StrId := Nat

/-- Modelled from the spec: `FilePath` wraps an interned string id (`file.0` in the
source); we identify it with the id itself. -/
abbrev FilePathT := Nat

/-- Modelled from the spec: a sink-type tag attached to taint sources/sinks and edges. -/
abbrev SinkType := Nat

/-- Modelled from the spec: `StrId::EMPTY`, the empty-string id used for memberless
symbols. -/
def StrIdEMPTY : StrId := 0

/-- Modelled from the spec: `HPos` is the tuple
(file, start_offset, end_offset, start_line, end_line, start_col, end_col). -/
structure HPos where
  file_path : FilePathT := 0
  start_offset : Nat := 0
  end_offset : Nat := 0
  start_line : Nat := 0
  end_line : Nat := 0
  start_col : Nat := 0
  end_col : Nat := 0
  deriving DecidableEq, Repr, Inhabited

/-- Modelled from the spec: function-like identifiers (plain function, method, or
file-anchored closure). -/
inductive FunctionLikeIdentifier where
  | Function (name : StrId)
  | Method (classlikeName : StrId) (methodName : StrId)
  | Closure (file : FilePathT) (offset : Nat)
  deriving DecidableEq, Repr

/-- Modelled from the spec (section 3, `node.rs` is not under `src/`): the tagged node
identifier of the data-flow graph. `TypeName` is the id of the aggregate node synthesized
by `DataFlowNode::get_for_type` for a whole shape type alias. -/
inductive DataFlowNodeId where
  | Var (functionId : StrId) (name : String) (pos : Nat × Nat)
  | Param (functionId : StrId) (index : Nat)
  | CallTo (funcId : FunctionLikeIdentifier)
  | SpecializedCallTo (funcId : FunctionLikeIdentifier) (file : FilePathT) (offset : Nat)
  | Property (classlikeName : StrId) (fieldName : StrId)
  | SpecializedProperty (classlikeName : StrId) (fieldName : StrId) (file : FilePathT)
      (offset : Nat)
  | ShapeFieldAccess (typeName : StrId) (fieldName : String)
  | TypeName (typeName : StrId)
  | Synthetic (n : Nat)
  deriving DecidableEq, Repr

/-- Modelled from the spec: the kind of a variable-use source
(`{Default, PrivateParam, NonPrivateParam, InoutParam, Closure}`). -/
inductive VariableSourceKind where
  | Default
  | PrivateParam
  | NonPrivateParam
  | InoutParam
  | ClosureUse
  deriving DecidableEq, Repr

/-- Modelled from the spec (section 3, `node.rs` is not under `src/`): the tagged node
kind. -/
inductive DataFlowNodeKind where
  | Vertex (pos : Option HPos) (is_specialized : Bool)
  | TaintSource (pos : Option HPos) (types : List SinkType)
  | VariableUseSource (kind : VariableSourceKind) (pos : HPos) (pure : Bool)
  | VariableUseSink (pos : HPos)
  | TaintSink (pos : Option HPos) (types : List SinkType)
  | DataSource (pos : Option HPos)
  | ForLoopInit (pos : HPos)
  deriving DecidableEq, Repr

/-- A data-flow node, as stored in the graph's maps. -/
structure DataFlowNode where
  id : DataFlowNodeId
  kind : DataFlowNodeKind
  deriving DecidableEq, Repr

/-- Modelled from the spec: the discriminator of array-shaped path kinds
(`ArrayDataKind ∈ {ArrayKey, ArrayValue}`, `path.rs` is not under `src/`). -/
inductive ArrayDataKind where
  | ArrayKey
  | ArrayValue
  deriving DecidableEq, Repr

/-- Modelled from the spec (section 3, `path.rs` is not under `src/`): edge labels of the
data-flow graph. -/
inductive PathKind where
  | Default
  | ArrayAssignment (kind : ArrayDataKind) (key : String)
  | ArrayFetch (kind : ArrayDataKind) (key : String)
  | PropertyAssignment (fieldName : StrId)
  | PropertyFetch (fieldName : StrId)
  | Aggregate
  | RemoveDictKey
  | ScalarTypeGuard
  | Coalesce
  | Awaited
  | Refine
  deriving DecidableEq, Repr

/-- Modelled from the spec: a labeled path stored on a forward edge
(`added_taints`/`removed_taints` are sink-type tags attached to the edge). -/
structure DataFlowPath where
  kind : PathKind
  added_taints : List SinkType
  removed_taints : List SinkType
  deriving DecidableEq, Repr

/-- Insertion into a set represented as a duplicate-free list in insertion order
(embedding of `FxHashSet::insert`). -/
def setInsert [DecidableEq α] (l : List α) (a : α) : List α :=
  if a ∈ l then l else l ++ [a]

/-- Lookup in an association list (embedding of `FxHashMap::get`). -/
def assocLookup [DecidableEq α] (l : List (α × β)) (k : α) : Option β :=
  (l.find? (fun p => decide (p.1 = k))).map (·.2)

/-- Insertion into an association list, overwriting in place on an existing key
(embedding of `FxHashMap::insert`). -/
def assocInsert [DecidableEq α] (l : List (α × β)) (k : α) (v : β) : List (α × β) :=
  match l with
  | [] => [(k, v)]
  | (k', v') :: rest =>
    if k' = k then (k, v) :: rest else (k', v') :: assocInsert rest k v

/-- Merge of two association lists, the second overwriting the first on shared keys
(embedding of `HashMap::extend`). -/
def assocExtend [DecidableEq α] (l other : List (α × β)) : List (α × β) :=
  other.foldl (fun acc p => assocInsert acc p.1 p.2) l

/-- Union of two insertion-ordered sets (embedding of `HashSet::extend`). -/
def setExtend [DecidableEq α] (l other : List α) : List α :=
  other.foldl (fun acc a => setInsert acc a) l

/-- `WholeProgramKind` from `graph.rs` lines 13-17. -/
inductive WholeProgramKind where
  | Taint
  | Query
  deriving DecidableEq, Repr

/-- `GraphKind` from `graph.rs` lines 19-23. -/
inductive GraphKind where
  | FunctionBody
  | WholeProgram (k : WholeProgramKind)
  deriving DecidableEq, Repr

/-- Modelled from the spec (`node.rs` is not under `src/`): `unspecialize(id)` strips the
`(file, offset)` tail from specialized variants, yielding the base id plus the stripped
key. `add_node` only calls it on nodes flagged `is_specialized`; on other variants the
embedding returns the id unchanged with a zero key. -/
def DataFlowNodeId.unspecialize : DataFlowNodeId → DataFlowNodeId × (FilePathT × Nat)
  | .SpecializedCallTo f file off => (.CallTo f, (file, off))
  | .SpecializedProperty c p file off => (.Property c p, (file, off))
  | id => (id, (0, 0))

/-- `DataFlowGraph` from `graph.rs` lines 25-36. Maps are embedded as total functions
with empty defaults; edge sets and per-key maps are insertion-ordered lists. -/
structure DataFlowGraph where
  kind : GraphKind
  vertices : DataFlowNodeId → Option DataFlowNode
  forward_edges : DataFlowNodeId → List (DataFlowNodeId × DataFlowPath)
  backward_edges : DataFlowNodeId → List DataFlowNodeId
  sources : DataFlowNodeId → Option DataFlowNode
  sinks : DataFlowNodeId → Option DataFlowNode
  mixed_source_counts : DataFlowNodeId → List String
  specializations : DataFlowNodeId → List (FilePathT × Nat)
  specialized_calls : FilePathT × Nat → List DataFlowNodeId

/-- `DataFlowGraph::new` from `graph.rs` lines 39-51. -/
def DataFlowGraph.new (kind : GraphKind) : DataFlowGraph where
  kind := kind
  vertices := fun _ => none
  forward_edges := fun _ => []
  backward_edges := fun _ => []
  sources := fun _ => none
  sinks := fun _ => none
  mixed_source_counts := fun _ => []
  specializations := fun _ => []
  specialized_calls := fun _ => []

/-- `DataFlowGraph::add_node` from `graph.rs` lines 53-83. -/
def DataFlowGraph.add_node (g : DataFlowGraph) (node : DataFlowNode) : DataFlowGraph :=
  match node.kind with
  | .Vertex _ is_specialized =>
    let g :=
      match g.kind with
      | .WholeProgram _ =>
        if is_specialized then
          let us := node.id.unspecialize
          { g with
            specializations := fun i =>
              if i = us.1 then setInsert (g.specializations i) us.2
              else g.specializations i
            specialized_calls := fun k =>
              if k = us.2 then setInsert (g.specialized_calls k) us.1
              else g.specialized_calls k }
        else g
      | .FunctionBody => g
    { g with vertices := fun i => if i = node.id then some node else g.vertices i }
  | .TaintSource _ _ | .VariableUseSource _ _ _ | .DataSource _ | .ForLoopInit _ =>
    { g with sources := fun i => if i = node.id then some node else g.sources i }
  | .TaintSink _ _ | .VariableUseSink _ =>
    { g with sinks := fun i => if i = node.id then some node else g.sinks i }

/-- `DataFlowGraph::add_path` from `graph.rs` lines 85-115. -/
def DataFlowGraph.add_path (g : DataFlowGraph) (from_id to_id : DataFlowNodeId)
    (path_kind : PathKind) (added_taints removed_taints : List SinkType) : DataFlowGraph :=
  if from_id = to_id then g
  else
    let g :=
      match g.kind with
      | .FunctionBody =>
        { g with
          backward_edges := fun i =>
            if i = to_id then setInsert (g.backward_edges i) from_id
            else g.backward_edges i }
      | .WholeProgram _ => g
    { g with
      forward_edges := fun i =>
        if i = from_id then
          assocInsert (g.forward_edges i) to_id
            ⟨path_kind, added_taints, removed_taints⟩
        else g.forward_edges i }

/-- `DataFlowGraph::add_graph` from `graph.rs` lines 117-149. The source panics when
the kinds differ; the embedding leaves the receiver unchanged in that case (the
reachability relations below only merge graphs of equal kind). -/
def DataFlowGraph.add_graph (g : DataFlowGraph) (graph : DataFlowGraph) : DataFlowGraph :=
  if g.kind ≠ graph.kind then g
  else
    let forward := fun i => assocExtend (g.forward_edges i) (graph.forward_edges i)
    let g :=
      if g.kind = .FunctionBody then
        { g with
          forward_edges := forward
          backward_edges := fun i => setExtend (g.backward_edges i) (graph.backward_edges i)
          mixed_source_counts := fun i =>
            setExtend (g.mixed_source_counts i) (graph.mixed_source_counts i) }
      else
        { g with
          forward_edges := forward
          specializations := fun i =>
            setExtend (g.specializations i) (graph.specializations i) }
    { g with
      vertices := fun i => (graph.vertices i).orElse (fun _ => g.vertices i)
      sources := fun i => (graph.sources i).orElse (fun _ => g.sources i)
      sinks := fun i => (graph.sinks i).orElse (fun _ => g.sinks i) }

/-- The per-edge loop of `get_origin_node_ids` (`graph.rs` lines 190-209): walk the
backward-edge list of `child`, stopping at the first edge whose forward path kind is in
`ignore_paths` (the source's `break`), collecting not-yet-visited parents and flagging
already-visited ones. -/
def gatherParents (g : DataFlowGraph) (ignore_paths : List PathKind)
    (visited : List DataFlowNodeId) (child : DataFlowNodeId) :
    List DataFlowNodeId → List DataFlowNodeId → Bool → List DataFlowNodeId × Bool
  | [], acc, hv => (acc, hv)
  | fromId :: rest, acc, hv =>
    let ignored :=
      match assocLookup (g.forward_edges fromId) child with
      | some path => decide (path.kind ∈ ignore_paths)
      | none => false
    if ignored then (acc, hv)
    else
      let next :=
        if (g.vertices fromId).isSome ∨ (g.sources fromId).isSome then
          if fromId ∉ visited then (setInsert acc fromId, hv) else (acc, true)
        else (acc, hv)
      gatherParents g ignore_paths visited child rest next.1 next.2

/-- The per-round child loop of `get_origin_node_ids` (`graph.rs` lines 173-219):
returns the updated visited set, the accumulated origins, and the next frontier. -/
def originProcessChildren (g : DataFlowGraph) (ignore_paths : List PathKind)
    (var_ids_only : Bool) :
    List DataFlowNodeId → List DataFlowNodeId → List DataFlowNodeId →
    List DataFlowNodeId →
    List DataFlowNodeId × List DataFlowNodeId × List DataFlowNodeId
  | [], visited, origins, acc => (visited, origins, acc)
  | child :: rest, visited, origins, acc =>
    if child ∈ visited then
      originProcessChildren g ignore_paths var_ids_only rest visited origins acc
    else
      let visited := setInsert visited child
      if var_ids_only &&
          (match child with
           | .Var _ _ _ | .Param _ _ => true
           | _ => false) then
        originProcessChildren g ignore_paths var_ids_only rest visited
          (origins ++ [child]) acc
      else
        let gp := gatherParents g ignore_paths visited child (g.backward_edges child) []
          false
        if gp.1.isEmpty then
          originProcessChildren g ignore_paths var_ids_only rest visited
            (if gp.2 then origins else origins ++ [child]) acc
        else
          originProcessChildren g ignore_paths var_ids_only rest visited origins
            (acc ++ gp.1.filter (· ∉ visited))

/-- The bounded round loop of `get_origin_node_ids` (`graph.rs` lines 170-226): at most
50 rounds, stopping early when the frontier drains. -/
def originLoop (g : DataFlowGraph) (ignore_paths : List PathKind) (var_ids_only : Bool) :
    Nat → List DataFlowNodeId → List DataFlowNodeId → List DataFlowNodeId →
    List DataFlowNodeId
  | 0, _, _, origins => origins
  | fuel + 1, visited, children, origins =>
    let step := originProcessChildren g ignore_paths var_ids_only children visited
      origins []
    if step.2.2.isEmpty then step.2.1
    else originLoop g ignore_paths var_ids_only fuel step.1 step.2.2 step.2.1

/-- `DataFlowGraph::get_origin_node_ids` from `graph.rs` lines 152-229. -/
def DataFlowGraph.get_origin_node_ids (g : DataFlowGraph)
    (assignment_node_id : DataFlowNodeId) (ignore_paths : List PathKind)
    (var_ids_only : Bool) : List DataFlowNodeId :=
  let children :=
    if (g.vertices assignment_node_id).isSome ∨ (g.sources assignment_node_id).isSome
    then [assignment_node_id] else []
  originLoop g ignore_paths var_ids_only 50 [] children []

/-- `DataFlowGraph::get_node` from `graph.rs` lines 231-242. -/
def DataFlowGraph.get_node (g : DataFlowGraph) (id : DataFlowNodeId) :
    Option DataFlowNode :=
  match g.vertices id with
  | some node => some node
  | none =>
    match g.sources id with
    | some node => some node
    | none => g.sinks id

/-- The per-origin step of `add_mixed_data` (`graph.rs` lines 247-260): record the
position string against call-like origins only. -/
def mixedCountStep (pos : String) (g : DataFlowGraph) (oid : DataFlowNodeId) :
    DataFlowGraph :=
  match oid with
  | .CallTo _ | .SpecializedCallTo _ _ _ =>
    { g with
      mixed_source_counts := fun i =>
        if i = oid then setInsert (g.mixed_source_counts i) pos
        else g.mixed_source_counts i }
  | _ => g

/-- `DataFlowGraph::add_mixed_data` from `graph.rs` lines 244-261; the position is
embedded pre-stringified (the source stores `pos.to_string()`). -/
def DataFlowGraph.add_mixed_data (g : DataFlowGraph) (assignment_node : DataFlowNode)
    (pos : String) : DataFlowGraph :=
  let origin_node_ids := g.get_origin_node_ids assignment_node.id [] false
  origin_node_ids.foldl (mixedCountStep pos) g

/-- Graphs reachable from an empty graph by `add_node`, `add_path` and `add_graph`
(merged graphs themselves reachable, of matching kind: the source panics otherwise). -/
inductive Reachable : DataFlowGraph → Prop where
  | empty (kind : GraphKind) : Reachable (DataFlowGraph.new kind)
  | node (g : DataFlowGraph) (n : DataFlowNode) :
      Reachable g → Reachable (g.add_node n)
  | path (g : DataFlowGraph) (a b : DataFlowNodeId) (k : PathKind)
      (at_ rt : List SinkType) :
      Reachable g → Reachable (g.add_path a b k at_ rt)
  | graph (g h : DataFlowGraph) :
      Reachable g → Reachable h → g.kind = h.kind → Reachable (g.add_graph h)

/-- Graphs reachable from an empty graph by `add_node`, `add_path`, `add_graph` and
`add_mixed_data`. -/
inductive ReachableM : DataFlowGraph → Prop where
  | empty (kind : GraphKind) : ReachableM (DataFlowGraph.new kind)
  | node (g : DataFlowGraph) (n : DataFlowNode) :
      ReachableM g → ReachableM (g.add_node n)
  | path (g : DataFlowGraph) (a b : DataFlowNodeId) (k : PathKind)
      (at_ rt : List SinkType) :
      ReachableM g → ReachableM (g.add_path a b k at_ rt)
  | graph (g h : DataFlowGraph) :
      ReachableM g → ReachableM h → g.kind = h.kind → ReachableM (g.add_graph h)
  | mixed (g : DataFlowGraph) (n : DataFlowNode) (pos : String) :
      ReachableM g → ReachableM (g.add_mixed_data n pos)

/-- `VariableUsage` from `unused_variable_analyzer.rs` lines 29-33. -/
inductive VariableUsage where
  | NeverReferenced
  | ReferencedButNotUsed
  | Used
  deriving DecidableEq, Repr

/-- `VariableUseNode` from `unused_variable_analyzer.rs` lines 390-395. -/
structure VariableUseNode where
  pos : HPos
  path_types : List PathKind
  kind : VariableSourceKind
  deriving DecidableEq, Repr

/-- Modelled from the spec: the ignore predicates `should_ignore_array_fetch` and
`should_ignore_property_fetch` live in `program_analyzer.rs`, which is not under `src/`;
spec section 4.3 says the concrete rule is "consumed as an interface". The search is
therefore parameterized by the pair of predicates. -/
structure IgnorePreds where
  arrayFetch : PathKind → ArrayDataKind → List PathKind → Bool
  propertyFetch : PathKind → List PathKind → Bool

/-- `VariableUseNode::from` from `unused_variable_analyzer.rs` lines 397-423; the source
panics (here `none`) on node kinds it does not handle and on a `Vertex` without a
position. -/
def VariableUseNode.ofNode (node : DataFlowNode) :
    Option (DataFlowNodeId × VariableUseNode) :=
  match node.kind with
  | .Vertex (some pos) _ => some (node.id, ⟨pos, [], .Default⟩)
  | .Vertex none _ => none
  | .VariableUseSource kind pos _ => some (node.id, ⟨pos, [], kind⟩)
  | .VariableUseSink pos => some (node.id, ⟨pos, [], .Default⟩)
  | _ => none

/-- The edge loop of `get_variable_child_nodes` (`unused_variable_analyzer.rs` lines
147-187); `none` is the `Used` sentinel returned when an outgoing edge reaches a sink. -/
def childNodesLoop (P : IgnorePreds) (g : DataFlowGraph)
    (generated_source : VariableUseNode) (visited_source_ids : List DataFlowNodeId) :
    List (DataFlowNodeId × DataFlowPath) → List (DataFlowNodeId × VariableUseNode) →
    Option (List (DataFlowNodeId × VariableUseNode))
  | [], acc => some acc
  | (to_id, path) :: rest, acc =>
    if (g.sinks to_id).isSome then none
    else if to_id ∈ visited_source_ids then
      childNodesLoop P g generated_source visited_source_ids rest acc
    else if P.arrayFetch path.kind .ArrayKey generated_source.path_types then
      childNodesLoop P g generated_source visited_source_ids rest acc
    else if P.arrayFetch path.kind .ArrayValue generated_source.path_types then
      childNodesLoop P g generated_source visited_source_ids rest acc
    else if P.propertyFetch path.kind generated_source.path_types then
      childNodesLoop P g generated_source visited_source_ids rest acc
    else
      childNodesLoop P g generated_source visited_source_ids rest
        (assocInsert acc to_id
          { generated_source with
            path_types := generated_source.path_types ++ [path.kind] })

/-- `get_variable_child_nodes` from `unused_variable_analyzer.rs` lines 139-190. -/
def get_variable_child_nodes (P : IgnorePreds) (g : DataFlowGraph)
    (generated_source_id : DataFlowNodeId) (generated_source : VariableUseNode)
    (visited_source_ids : List DataFlowNodeId) :
    Option (List (DataFlowNodeId × VariableUseNode)) :=
  childNodesLoop P g generated_source visited_source_ids
    (g.forward_edges generated_source_id) []

/-- One round of the `is_variable_used` search (`unused_variable_analyzer.rs` lines
113-127): each current source is marked visited, then expanded; `none` propagates the
`Used` sentinel. -/
def stepRound (P : IgnorePreds) (g : DataFlowGraph) :
    List (DataFlowNodeId × VariableUseNode) → List DataFlowNodeId →
    List (DataFlowNodeId × VariableUseNode) →
    Option (List DataFlowNodeId × List (DataFlowNodeId × VariableUseNode))
  | [], visited, acc => some (visited, acc)
  | (id, src) :: rest, visited, acc =>
    let visited := setInsert visited id
    match get_variable_child_nodes P g id src visited with
    | none => none
    | some child_nodes => stepRound P g rest visited (assocExtend acc child_nodes)

/-- The bounded round loop of `is_variable_used` (`unused_variable_analyzer.rs` lines
106-136): `i` counts completed rounds, the loop runs while `i < 200` (embedded as the
structurally decreasing `fuel = 200 - i`), and on exit the classification is
`NeverReferenced` exactly when `i == 1`. -/
def isVariableUsedAux (P : IgnorePreds) (g : DataFlowGraph) :
    Nat → Nat → List DataFlowNodeId → List (DataFlowNodeId × VariableUseNode) →
    VariableUsage
  | 0, i, _, _ => if i = 1 then .NeverReferenced else .ReferencedButNotUsed
  | fuel + 1, i, visited, sources =>
    if sources.isEmpty then
      if i = 1 then .NeverReferenced else .ReferencedButNotUsed
    else
      match stepRound P g sources visited [] with
      | none => .Used
      | some next => isVariableUsedAux P g fuel (i + 1) next.1 next.2

/-- `is_variable_used` from `unused_variable_analyzer.rs` lines 98-137 (`none` when
`VariableUseNode::from` panics on the given node). -/
def is_variable_used (P : IgnorePreds) (g : DataFlowGraph) (source_node : DataFlowNode) :
    Option VariableUsage :=
  (VariableUseNode.ofNode source_node).map fun p => isVariableUsedAux P g 200 0 [] [p]

/-- Modelled from the spec (section 6, `issue.rs` is not under `src/`): an issue carries
a kind, a position and an owning `(symbol, member)` pair; only `symbol` and `pos` are
read by the diff engine. -/
structure Issue where
  kind : Nat := 0
  symbol : StrId × StrId
  pos : HPos
  deriving DecidableEq, Repr

/-- Modelled from the spec (section 4.4, `code_info/diff.rs` is not under `src/`): the
fields of `CodebaseDiff` read by the functions under verification. The per-file maps are
total functions defaulting to `[]` (the source calls `.get(..).cloned().unwrap_or(vec![])`). -/
structure CodebaseDiff where
  keep : List (StrId × StrId) := []
  diff_map : FilePathT → List (Nat × Nat × Int × Int) := fun _ => []
  deletion_ranges_map : FilePathT → List (Nat × Nat) := fun _ => []

/-- Wrapping cast to `u32`, as performed by `((x as isize) + offset) as u32` in
`diff.rs` lines 167-173. -/
def u32cast (i : Int) : Nat := (i % 4294967296).toNat

/-- The shift applied to one issue by the `diff_map` loop of `update_issues_from_diff`
(`diff.rs` lines 163-178): the first entry whose range contains the issue's start offset
shifts all four position fields, then the loop breaks. -/
def applyDiffShift (diff_map : List (Nat × Nat × Int × Int)) (issue : Issue) : Issue :=
  match diff_map.find? (fun e =>
      decide (e.1 ≤ issue.pos.start_offset) && decide (issue.pos.start_offset ≤ e.2.1)) with
  | some e =>
    let file_offset := e.2.2.1
    let line_offset := e.2.2.2
    { issue with
      pos :=
        { issue.pos with
          start_offset := u32cast ((issue.pos.start_offset : Int) + file_offset)
          end_offset := u32cast ((issue.pos.end_offset : Int) + file_offset)
          start_line := u32cast ((issue.pos.start_line : Int) + line_offset)
          end_line := u32cast ((issue.pos.end_line : Int) + line_offset) } }
  | none => issue

/-- The per-file body of `update_issues_from_diff` (`diff.rs` lines 129-178): drop
issues owned by invalid symbols or keyed by the file itself; if none survive, stop
(`continue`); otherwise drop issues starting inside a deletion range, then shift issues
starting inside a `diff_map` range. -/
def updateFileIssues (codebase_diff : CodebaseDiff)
    (invalid_symbols_and_members : List (StrId × StrId)) (fe : FilePathT × List Issue) :
    FilePathT × List Issue :=
  let existing_file := fe.1
  let file_issues := fe.2.filter fun issue =>
    decide (issue.symbol ∉ invalid_symbols_and_members) &&
      decide (issue.symbol.1 ≠ existing_file)
  if file_issues.isEmpty then (existing_file, file_issues)
  else
    let diff_map := codebase_diff.diff_map existing_file
    let deletion_ranges := codebase_diff.deletion_ranges_map existing_file
    let file_issues :=
      if deletion_ranges.isEmpty then file_issues
      else
        file_issues.filter fun issue =>
          !(deletion_ranges.any fun r =>
            decide (r.1 ≤ issue.pos.start_offset) &&
              decide (issue.pos.start_offset ≤ r.2))
    let file_issues :=
      if diff_map.isEmpty then file_issues
      else file_issues.map (applyDiffShift diff_map)
    (existing_file, file_issues)

/-- `update_issues_from_diff` from `diff.rs` lines 124-180. The issue cache is a map
from file to issue list, embedded as an association list (entries are processed
independently). -/
def update_issues_from_diff (existing_issues : List (FilePathT × List Issue))
    (codebase_diff : CodebaseDiff)
    (invalid_symbols_and_members : List (StrId × StrId)) :
    List (FilePathT × List Issue) :=
  existing_issues.map (updateFileIssues codebase_diff invalid_symbols_and_members)

/-- `CachedAnalysis` from `diff.rs` lines 16-22 (the `symbol_references` index lives in
a module that is not under `src/` and is not read by any claim; it is omitted). -/
structure CachedAnalysis where
  safe_symbols : List StrId := []
  safe_symbol_members : List (StrId × StrId) := []
  existing_issues : List (FilePathT × List Issue) := []
  deriving Repr

/-- The per-`keep_symbol` step of `mark_safe_symbols_from_diff` (`diff.rs` lines
76-88): a kept symbol that is not invalid lands in `safe_symbols` when it is memberless
and not partially invalid, and in `safe_symbol_members` when it has a member part. -/
def markSafeStep (invalid_symbols_and_members : List (StrId × StrId))
    (partInvalidSymbols : List StrId) (ca : CachedAnalysis)
    (keep_symbol : StrId × StrId) : CachedAnalysis :=
  if keep_symbol ∉ invalid_symbols_and_members then
    if keep_symbol.2 = StrIdEMPTY then
      if keep_symbol.1 ∉ partInvalidSymbols then
        { ca with safe_symbols := setInsert ca.safe_symbols keep_symbol.1 }
      else ca
    else
      { ca with safe_symbol_members := setInsert ca.safe_symbol_members keep_symbol }
  else ca

/-- `mark_safe_symbols_from_diff` from `diff.rs` lines 24-122, specialized to the
cache-hit path: the cache-loading prelude and `get_invalid_symbols` (both in modules not
under `src/`) are summarized by the `invalid_result` argument (`none` models the cache
miss / too-many-invalidations early returns, which yield a default `CachedAnalysis`);
the reference pruning and file-list retention (which only touch the omitted references
index and the interner) are elided. `partInvalidSymbols` is the source's set of
partially invalid symbols. -/
def mark_safe_symbols_from_diff
    (invalid_result : Option (List (StrId × StrId) × List StrId))
    (codebase_diff : CodebaseDiff) (existing_issues : List (FilePathT × List Issue)) :
    CachedAnalysis :=
  match invalid_result with
  | none => {}
  | some (invalid_symbols_and_members, partInvalidSymbols) =>
    let cached := codebase_diff.keep.foldl
      (markSafeStep invalid_symbols_and_members partInvalidSymbols) {}
    { cached with
      existing_issues :=
        update_issues_from_diff existing_issues codebase_diff
          invalid_symbols_and_members }

/-- Modelled from the spec (`t_atomic.rs` is not under `src/`): keys of dict shape
literals. -/
inductive DictKey where
  | IntKey (i : Nat)
  | StringKey (s : String)
  | EnumKey (classlikeName : StrId) (memberName : StrId)
  deriving DecidableEq, Repr

mutual
/-- Modelled from the spec (`t_atomic.rs` is not under `src/`): the atomic type
constructors, with exactly the fields read or written by `expand_atomic`
(`type_expander.rs` lines 120-644). `TClosure` parameters carry
`(signature_type, is_inout, is_variadic, is_optional)`. -/
inductive TAtomic where
  | TDict (known_items : Option (List (DictKey × Bool × TUnion)))
      (params : Option (TUnion × TUnion)) (shape_name : Option (StrId × Option StrId))
  | TVec (known_items : Option (List (Nat × Bool × TUnion))) (type_param : TUnion)
  | TKeyset (type_param : TUnion)
  | TAwaitable (value : TUnion)
  | TNamedObject (name : StrId) (type_params : Option (List TUnion)) (is_this : Bool)
  | TClosure (params : List (Option TUnion × Bool × Bool × Bool))
      (return_type : Option TUnion) (effects : Nat) (closure_id : FilePathT × Nat)
  | TGenericParam (param_name : StrId) (as_type : TUnion)
  | TClassname (as_type : TAtomic)
  | TTypename (as_type : TAtomic)
  | TEnumLiteralCase (enum_name : StrId) (member_name : StrId) (as_type : Option TAtomic)
  | TEnum (name : StrId) (as_type : Option TAtomic)
  | TMemberReference (classlike_name : StrId) (member_name : StrId)
  | TTypeAlias (name : StrId) (type_params : Option (List TUnion))
      (as_type : Option TUnion)
  | TClassTypeConstant (class_type : TAtomic) (member_name : StrId) (as_type : TUnion)
  | TClosureAlias (id : FunctionLikeIdentifier)
  | TMixed
  | TMixedWithFlags (a b c d : Bool)
  | TStringWithFlags (a b c : Bool)
  | TString
  | TInt
  | TNothing

/-- Modelled from the spec (section 3): a union is a list of atomics together with its
parent-node set in the data-flow graph. -/
inductive TUnion where
  | mk (types : List TAtomic) (parent_nodes : List DataFlowNode)
end

/-- The atomic list of a union. -/
def TUnion.types : TUnion → List TAtomic
  | ⟨t, _⟩ => t

/-- The parent-node set of a union. -/
def TUnion.parent_nodes : TUnion → List DataFlowNode
  | ⟨_, p⟩ => p

/-- `wrap_atomic` from the `ttype` module root (a single-atomic union with no parent
nodes), as used by `type_expander.rs`. -/
def wrapAtomic (a : TAtomic) : TUnion := ⟨[a], []⟩

/-- `get_nothing` from the `ttype` module root: the `nothing` union. -/
def getNothing : TUnion := ⟨[.TNothing], []⟩

/-- `TUnion::get_single_owned`, which panics (`none`) on an empty union. -/
def TUnion.getSingleOwned : TUnion → Option TAtomic
  | ⟨t :: _, _⟩ => some t
  | ⟨[], _⟩ => none

/-- `extend_dataflow_uniquely` from the `ttype` module root; spec section 3: "parent-node
sets are merged de-duplicated". -/
def extendDataflowUniquely (parent_nodes : List DataFlowNode)
    (extra : List DataFlowNode) : List DataFlowNode :=
  extra.foldl (fun acc n => if n ∈ acc then acc else acc ++ [n]) parent_nodes

/-- `ClassConstantType` from `classlike_info.rs` (not under `src/`), as matched by
`expand_atomic` lines 605-629. -/
inductive ClassConstantType where
  | Concrete (t : TUnion)
  | Abstract (t : Option TUnion)

/-- Modelled from the spec (section 6): the slice of a type definition read by
`expand_atomic` lines 362-540. `template_types` keeps, for each template entry `k`, the
list of its inner keys `kk` (the source iterates `for (kk, _) in v`). -/
structure TypeDefinitionInfo where
  actual_type : TUnion
  template_types : List (StrId × List StrId) := []
  as_type : Option TUnion := none
  newtype_file : Option FilePathT := none
  is_literal_string : Bool := false
  shape_field_taints : Option (List (DictKey × HPos × List SinkType)) := none
  location : HPos := {}

/-- Modelled from the spec (section 6): the slice of a classlike's storage read by the
expander. -/
structure ClasslikeInfo where
  enum_as_type : Option TAtomic := none
  type_constants : StrId → Option ClassConstantType := fun _ => none

/-- Modelled from the spec (section 6): the slice of a function-like's storage read by
`get_expanded_closure`. -/
structure FunctionLikeInfo where
  params : List (Option TUnion × Bool × Bool × Bool) := []
  return_type : Option TUnion := none
  effects : Nat := 0
  def_location : HPos := {}

/-- Modelled from the spec (section 6): the read-only codebase interface consumed by the
expander, together with the two helpers the expander calls in `ttype` modules that are
not under `src/` (`type_combiner::combine` and
`template::inferred_type_replacer::replace`). -/
structure CodebaseEnv where
  classlike_infos : StrId → Option ClasslikeInfo := fun _ => none
  type_definitions : StrId → Option TypeDefinitionInfo := fun _ => none
  get_classconst_literal_value : StrId → StrId → Option TAtomic := fun _ _ => none
  get_class_constant_type : StrId → StrId → Option TUnion := fun _ _ => none
  class_extends_or_implements : StrId → StrId → Bool := fun _ _ => false
  functionlike_infos : StrId × StrId → Option FunctionLikeInfo := fun _ => none
  get_declaring_method_id : StrId × StrId → StrId × StrId := id
  get_method : StrId × StrId → Option FunctionLikeInfo := fun _ => none
  combine : List TAtomic → List TAtomic := id
  replaceTemplates : TUnion → List (StrId × List (StrId × TUnion)) → TUnion :=
    fun u _ => u

/-- `StaticClassType` from `type_expander.rs` lines 25-30. -/
inductive StaticClassType where
  | None
  | Name (n : StrId)
  | Object (a : TAtomic)

/-- `TypeExpansionOptions` from `type_expander.rs` lines 32-47, with the `Default`
values of lines 49-66. -/
structure TypeExpansionOptions where
  self_class : Option StrId := none
  static_class_type : StaticClassType := .None
  parent_class : Option StrId := none
  file_path : Option FilePathT := none
  evaluate_class_constants : Bool := true
  evaluate_conditional_types : Bool := false
  function_is_final : Bool := false
  expand_generic : Bool := false
  expand_templates : Bool := true
  expand_typenames : Bool := true
  expand_hakana_types : Bool := true
  expand_all_type_aliases : Bool := false

/-- Modelled from the spec: the distinguished `StrId::THIS` symbol id. -/
def StrIdTHIS : StrId := 1

/-- Modelled from the spec: an interner maps interned ids back to strings; the expander
only uses it to stringify dict keys (`DictKey::to_string`). -/
abbrev InternerT := StrId → String

/-- Modelled from the spec: `DictKey::to_string` with an interner available. -/
def DictKey.toStr (interner : InternerT) : DictKey → String
  | .IntKey i => toString i
  | .StringKey s => s
  | .EnumKey c m => interner c ++ "::" ++ interner m

/-- The key string stored on a taint edge by `expand_atomic` lines 464-471; the
`DictKey::Enum` arm is `todo!()` in the source (a panic, embedded as `none`). -/
def pathKeyOfDictKey : DictKey → Option String
  | .IntKey i => some (toString i)
  | .StringKey k => some k
  | .EnumKey _ _ => none

/-- Modelled from the spec (`node.rs` is not under `src/`): `DataFlowNode::get_for_type`
synthesizes the aggregate vertex node standing for the whole shape type alias (spec
section 4.2: "synthesize a second node for the shape as a whole"). -/
def DataFlowNode.getForType (name : StrId) (loc : HPos) : DataFlowNode :=
  ⟨.TypeName name, .Vertex (some loc) false⟩

/-- The shape-field taint-injection loop of `expand_atomic` (`type_expander.rs` lines
447-477): for each tainted field, add the `field → shape` edge and then the field node;
`none` embeds the `todo!()` panic on enum keys. -/
def injectFieldTaints (type_name : StrId) (interner : InternerT)
    (shape_node : DataFlowNode) :
    List (DictKey × HPos × List SinkType) → DataFlowGraph → Option DataFlowGraph
  | [], g => some g
  | (field_name, tpos, ttypes) :: rest, g =>
    let field_node : DataFlowNode :=
      ⟨.ShapeFieldAccess type_name (field_name.toStr interner),
       .TaintSource (some tpos) ttypes⟩
    match pathKeyOfDictKey field_name with
    | none => none
    | some key =>
      let g := g.add_path field_node.id shape_node.id
        (.ArrayAssignment .ArrayValue key) [] []
      injectFieldTaints type_name interner shape_node rest (g.add_node field_node)

/-- The body of the post-expansion map over one expanded alias atomic
(`type_expander.rs` lines 433-490, the `type_params.is_none()` case): for a shape dict,
inject field taints (when the definition carries them and an interner is available) and
re-attach the shape name (unless `expand_all_type_aliases`); other atomics pass through
unchanged. -/
def attachOneAliasShape (type_name : StrId) (td : TypeDefinitionInfo)
    (interner : Option InternerT) (expand_all : Bool) (v : TAtomic)
    (g : DataFlowGraph) (extra : List DataFlowNode) :
    Option (TAtomic × DataFlowGraph × List DataFlowNode) :=
  match v with
  | .TDict (some items) dparams shape_name =>
    match td.shape_field_taints with
    | some taints =>
      match interner with
      | some int =>
        let shape_node := DataFlowNode.getForType type_name td.location
        match injectFieldTaints type_name int shape_node taints g with
        | none => none
        | some g =>
          let extra := extra ++ [shape_node]
          let g := g.add_node shape_node
          let shape_name := if !expand_all then some (type_name, none) else shape_name
          some (.TDict (some items) dparams shape_name, g, extra)
      | none =>
        let shape_name := if !expand_all then some (type_name, none) else shape_name
        some (.TDict (some items) dparams shape_name, g, extra)
    | none =>
      let shape_name := if !expand_all then some (type_name, none) else shape_name
      some (.TDict (some items) dparams shape_name, g, extra)
  | v => some (v, g, extra)

/-- The post-expansion map over an alias's expanded atomics (`type_expander.rs` lines
430-491): `attachOneAliasShape` applied to each atomic in order, threading the graph and
the extra-node accumulator. -/
def attachAliasShape (type_name : StrId) (td : TypeDefinitionInfo)
    (interner : Option InternerT) (expand_all : Bool) :
    List TAtomic → DataFlowGraph → List DataFlowNode →
    Option (List TAtomic × DataFlowGraph × List DataFlowNode)
  | [], g, extra => some ([], g, extra)
  | v :: rest, g, extra =>
    match attachOneAliasShape type_name td interner expand_all v g extra with
    | none => none
    | some (v', g', extra') =>
      match attachAliasShape type_name td interner expand_all rest g' extra' with
      | none => none
      | some (rest', g'', extra'') => some (v' :: rest', g'', extra'')

/-- The template substitution built for an alias's `actual_type` (`type_expander.rs`
lines 399-417): entries beyond the supplied `type_params` are skipped. -/
def buildAliasSubst (template_types : List (StrId × List StrId))
    (type_params : List TUnion) : List (StrId × List (StrId × TUnion)) :=
  template_types.enum.filterMap fun ikv =>
    if ikv.1 < type_params.length then
      some (ikv.2.1, ikv.2.2.map fun kk => (kk, type_params.getD ikv.1 getNothing))
    else none

/-- The template substitution built for an alias's `as_type` bound (`type_expander.rs`
lines 495-517): missing `type_params` entries default to `nothing`. -/
def buildAsSubst (template_types : List (StrId × List StrId))
    (type_params : List TUnion) : List (StrId × List (StrId × TUnion)) :=
  template_types.enum.map fun ikv =>
    (ikv.2.1, ikv.2.2.map fun kk => (kk, type_params.getD ikv.1 getNothing))

set_option maxHeartbeats 2000000 in
mutual
/-- `expand_union` from `type_expander.rs` lines 68-118. The embedding is fuel-indexed
(the source's recursion is broken only by the codebase's pre-computed, cycle-free alias
types); exhausted fuel returns the input unchanged, and every theorem below supplies
sufficient fuel. `none` embeds a panic. -/
def expandUnion (fuel : Nat) (env : CodebaseEnv) (interner : Option InternerT)
    (options : TypeExpansionOptions) (return_type : TUnion) (g : DataFlowGraph) :
    Option (TUnion × DataFlowGraph) :=
  match fuel with
  | 0 => some (return_type, g)
  | fuel + 1 =>
    match expandParts fuel env interner options return_type.types g [] [] with
    | none => none
    | some (atoms, g, new_parts, extra) =>
      let types :=
        if atoms.any (·.2) then
          let kept := (atoms.filter (fun p => !p.2)).map (·.1)
          let parts := new_parts ++ kept
          if parts.length > 1 then env.combine parts else parts
        else atoms.map (·.1)
      some (⟨types, extendDataflowUniquely return_type.parent_nodes extra⟩, g)

/-- The per-atomic loop of `expand_union` (`type_expander.rs` lines 82-98): each atomic
is expanded with a fresh `skip_key`, threading the graph and the shared
`new_return_type_parts` / `extra_data_flow_nodes` accumulators; returns each (possibly
mutated) atomic with its skip flag. -/
def expandParts (fuel : Nat) (env : CodebaseEnv) (interner : Option InternerT)
    (options : TypeExpansionOptions) (parts : List TAtomic) (g : DataFlowGraph)
    (new_parts : List TAtomic) (extra : List DataFlowNode) :
    Option (List (TAtomic × Bool) × DataFlowGraph × List TAtomic × List DataFlowNode) :=
  match fuel with
  | 0 => some (parts.map (fun a => (a, false)), g, new_parts, extra)
  | fuel + 1 =>
    match parts with
    | [] => some ([], g, new_parts, extra)
    | a :: rest =>
      match expandAtomic fuel env interner options a g false new_parts extra with
      | none => none
      | some (a', g', skip, new_parts', extra') =>
        match expandParts fuel env interner options rest g' new_parts' extra' with
        | none => none
        | some (rest', g'', new_parts'', extra'') =>
          some ((a', skip) :: rest', g'', new_parts'', extra'')

/-- Expansion of a list of unions in order (the source's repeated
`for param_type in type_params { expand_union(..) }` loops). -/
def expandUnions (fuel : Nat) (env : CodebaseEnv) (interner : Option InternerT)
    (options : TypeExpansionOptions) (us : List TUnion) (g : DataFlowGraph) :
    Option (List TUnion × DataFlowGraph) :=
  match fuel with
  | 0 => some (us, g)
  | fuel + 1 =>
    match us with
    | [] => some ([], g)
    | u :: rest =>
      match expandUnion fuel env interner options u g with
      | none => none
      | some (u', g') =>
        match expandUnions fuel env interner options rest g' with
        | none => none
        | some (rest', g'') => some (u' :: rest', g'')

/-- Expansion of an optional list of unions (generic/alias `type_params`). -/
def expandOptUnions (fuel : Nat) (env : CodebaseEnv) (interner : Option InternerT)
    (options : TypeExpansionOptions) (us : Option (List TUnion)) (g : DataFlowGraph) :
    Option (Option (List TUnion) × DataFlowGraph) :=
  match fuel with
  | 0 => some (us, g)
  | fuel + 1 =>
    match us with
    | some l =>
      match expandUnions fuel env interner options l g with
      | none => none
      | some (l', g') => some (some l', g')
    | none => some (none, g)

/-- Expansion of dict `known_items` values (`type_expander.rs` lines 142-151). -/
def expandDictItems (fuel : Nat) (env : CodebaseEnv) (interner : Option InternerT)
    (options : TypeExpansionOptions) (items : List (DictKey × Bool × TUnion))
    (g : DataFlowGraph) : Option (List (DictKey × Bool × TUnion) × DataFlowGraph) :=
  match fuel with
  | 0 => some (items, g)
  | fuel + 1 =>
    match items with
    | [] => some ([], g)
    | (k, b, u) :: rest =>
      match expandUnion fuel env interner options u g with
      | none => none
      | some (u', g') =>
        match expandDictItems fuel env interner options rest g' with
        | none => none
        | some (rest', g'') => some ((k, b, u') :: rest', g'')

/-- Expansion of vec `known_items` values (`type_expander.rs` lines 165-169). -/
def expandVecItems (fuel : Nat) (env : CodebaseEnv) (interner : Option InternerT)
    (options : TypeExpansionOptions) (items : List (Nat × Bool × TUnion))
    (g : DataFlowGraph) : Option (List (Nat × Bool × TUnion) × DataFlowGraph) :=
  match fuel with
  | 0 => some (items, g)
  | fuel + 1 =>
    match items with
    | [] => some ([], g)
    | (k, b, u) :: rest =>
      match expandUnion fuel env interner options u g with
      | none => none
      | some (u', g') =>
        match expandVecItems fuel env interner options rest g' with
        | none => none
        | some (rest', g'') => some ((k, b, u') :: rest', g'')

/-- Expansion of closure parameter signature types (`type_expander.rs` lines 232-236 and
698-713). -/
def expandClosureParams (fuel : Nat) (env : CodebaseEnv) (interner : Option InternerT)
    (options : TypeExpansionOptions)
    (params : List (Option TUnion × Bool × Bool × Bool)) (g : DataFlowGraph) :
    Option (List (Option TUnion × Bool × Bool × Bool) × DataFlowGraph) :=
  match fuel with
  | 0 => some (params, g)
  | fuel + 1 =>
    match params with
    | [] => some ([], g)
    | (sig, a, b, c) :: rest =>
      match (match sig with
             | some t =>
               match expandUnion fuel env interner options t g with
               | none => none
               | some (t', g') => some ((some t', a, b, c), g')
             | none => some ((none, a, b, c), g)) with
      | none => none
      | some (p', g') =>
        match expandClosureParams fuel env interner options rest g' with
        | none => none
        | some (rest', g'') => some (p' :: rest', g'')

/-- `get_closure_from_id` from `type_expander.rs` lines 646-688; the wildcard arm of the
source is a panic (`none`), and `some (none, g)` is the source's `None` return. -/
def getClosureFromId (fuel : Nat) (env : CodebaseEnv) (interner : Option InternerT)
    (id : FunctionLikeIdentifier) (g : DataFlowGraph) :
    Option (Option TAtomic × DataFlowGraph) :=
  match fuel with
  | 0 => some (none, g)
  | fuel + 1 =>
    match id with
    | .Function name =>
      match env.functionlike_infos (name, StrIdEMPTY) with
      | some fi =>
        match getExpandedClosure fuel env interner {} fi g with
        | none => none
        | some (c, g') => some (some c, g')
      | none => some (none, g)
    | .Method classlike_name method_name =>
      let dm := env.get_declaring_method_id (classlike_name, method_name)
      match env.get_method dm with
      | some fi =>
        match getExpandedClosure fuel env interner
            { self_class := some classlike_name
              static_class_type := .Name classlike_name } fi g with
        | none => none
        | some (c, g') => some (some c, g')
      | none => some (none, g)
    | .Closure _ _ => none

/-- `get_expanded_closure` from `type_expander.rs` lines 690-733. -/
def getExpandedClosure (fuel : Nat) (env : CodebaseEnv) (interner : Option InternerT)
    (options : TypeExpansionOptions) (fi : FunctionLikeInfo) (g : DataFlowGraph) :
    Option (TAtomic × DataFlowGraph) :=
  match fuel with
  | 0 => some (.TMixed, g)
  | fuel + 1 =>
    match expandClosureParams fuel env interner options fi.params g with
    | none => none
    | some (params, g') =>
      match (match fi.return_type with
             | some rt =>
               match expandUnion fuel env interner options rt g' with
               | none => none
               | some (rt', g'') => some (some rt', g'')
             | none => some (none, g')) with
      | none => none
      | some (rt, g'') =>
        some (.TClosure params rt fi.effects
          (fi.def_location.file_path, fi.def_location.start_offset), g'')

/-- `expand_atomic` from `type_expander.rs` lines 120-644. The in-out arguments
(`skip_key`, `new_return_type_parts`, `extra_data_flow_nodes`) are threaded
explicitly; the returned atomic is the source's in-place mutation of
`return_type_part`. -/
def expandAtomic (fuel : Nat) (env : CodebaseEnv) (interner : Option InternerT)
    (options : TypeExpansionOptions) (atom : TAtomic) (g : DataFlowGraph)
    (skip_key : Bool) (new_parts : List TAtomic) (extra : List DataFlowNode) :
    Option (TAtomic × DataFlowGraph × Bool × List TAtomic × List DataFlowNode) :=
  match fuel with
  | 0 => some (atom, g, skip_key, new_parts, extra)
  | fuel + 1 =>
    match atom with
    | .TDict known_items dparams shape_name =>
      match (match dparams with
             | some (pk, pv) =>
               match expandUnion fuel env interner options pk g with
               | none => none
               | some (pk', g') =>
                 match expandUnion fuel env interner options pv g' with
                 | none => none
                 | some (pv', g'') => some (some (pk', pv'), g'')
             | none => some (none, g)) with
      | none => none
      | some (dparams', g') =>
        match (match known_items with
               | some items =>
                 match expandDictItems fuel env interner options items g' with
                 | none => none
                 | some (items', g'') => some (some items', g'')
               | none => some (none, g')) with
        | none => none
        | some (known_items', g'') =>
          let shape_name' := if options.expand_all_type_aliases then none else shape_name
          some (.TDict known_items' dparams' shape_name', g'', skip_key, new_parts, extra)
    | .TVec known_items type_param =>
      match expandUnion fuel env interner options type_param g with
      | none => none
      | some (type_param', g') =>
        match (match known_items with
               | some items =>
                 match expandVecItems fuel env interner options items g' with
                 | none => none
                 | some (items', g'') => some (some items', g'')
               | none => some (none, g')) with
        | none => none
        | some (known_items', g'') =>
          some (.TVec known_items' type_param', g'', skip_key, new_parts, extra)
    | .TKeyset type_param =>
      match expandUnion fuel env interner options type_param g with
      | none => none
      | some (type_param', g') =>
        some (.TKeyset type_param', g', skip_key, new_parts, extra)
    | .TAwaitable value =>
      match expandUnion fuel env interner options value g with
      | none => none
      | some (value', g') => some (.TAwaitable value', g', skip_key, new_parts, extra)
    | .TNamedObject name type_params is_this =>
      if name = StrIdTHIS then
        match options.static_class_type with
        | .Object obj =>
          some (.TNamedObject name type_params is_this, g, true, new_parts ++ [obj],
            extra)
        | .None =>
          let is_this' := if options.function_is_final then false else is_this
          match expandOptUnions fuel env interner options type_params g with
          | none => none
          | some (type_params', g') =>
            some (.TNamedObject StrIdTHIS type_params' is_this', g', skip_key,
              new_parts, extra)
        | .Name this_name =>
          let is_this' := if options.function_is_final then false else is_this
          match expandOptUnions fuel env interner options type_params g with
          | none => none
          | some (type_params', g') =>
            some (.TNamedObject this_name type_params' is_this', g', skip_key,
              new_parts, extra)
      else
        let replacement : Option TAtomic :=
          if is_this then
            match options.static_class_type with
            | .Object obj =>
              match obj with
              | .TNamedObject new_this_name _ _ =>
                if env.class_extends_or_implements new_this_name name then some obj
                else none
              | _ => none
            | _ => none
          else none
        match replacement with
        | some obj =>
          some (.TNamedObject name type_params is_this, g, true, new_parts ++ [obj],
            extra)
        | none =>
          match expandOptUnions fuel env interner options type_params g with
          | none => none
          | some (type_params', g') =>
            some (.TNamedObject name type_params' is_this, g', skip_key, new_parts,
              extra)
    | .TClosure cparams return_type effects closure_id =>
      match (match return_type with
             | some rt =>
               match expandUnion fuel env interner options rt g with
               | none => none
               | some (rt', g') => some (some rt', g')
             | none => some (none, g)) with
      | none => none
      | some (return_type', g') =>
        match expandClosureParams fuel env interner options cparams g' with
        | none => none
        | some (cparams', g'') =>
          some (.TClosure cparams' return_type' effects closure_id, g'', skip_key,
            new_parts, extra)
    | .TGenericParam param_name as_type =>
      match expandUnion fuel env interner options as_type g with
      | none => none
      | some (as_type', g') =>
        some (.TGenericParam param_name as_type', g', skip_key, new_parts, extra)
    | .TClassname as_type =>
      match expandAtomic fuel env interner options as_type g false [] extra with
      | none => none
      | some (as_mut, g', _, parts2, extra') =>
        let as_type' := match parts2 with
          | p :: _ => p
          | [] => as_mut
        some (.TClassname as_type', g', skip_key, new_parts, extra')
    | .TTypename as_type =>
      match expandAtomic fuel env interner options as_type g false [] extra with
      | none => none
      | some (as_mut, g', _, parts2, extra') =>
        let as_type' := match parts2 with
          | p :: _ => p
          | [] => as_mut
        some (.TTypename as_type', g', skip_key, new_parts, extra')
    | .TEnumLiteralCase enum_name member_name as_type =>
      let as_type' := match as_type with
        | none =>
          match env.classlike_infos enum_name with
          | some cls => cls.enum_as_type
          | none => none
        | some t => some t
      match as_type' with
      | some t =>
        match expandUnion fuel env interner options (wrapAtomic t) g with
        | none => none
        | some (cu, g') =>
          match cu.getSingleOwned with
          | some single =>
            some (.TEnumLiteralCase enum_name member_name (some single), g', skip_key,
              new_parts, extra)
          | none => none
      | none =>
        some (.TEnumLiteralCase enum_name member_name none, g, skip_key, new_parts,
          extra)
    | .TEnum name as_type =>
      match env.classlike_infos name with
      | some storage =>
        match storage.enum_as_type with
        | some st =>
          match expandUnion fuel env interner options (wrapAtomic st) g with
          | none => none
          | some (cu, g') =>
            match cu.getSingleOwned with
            | some single => some (.TEnum name (some single), g', skip_key, new_parts,
                extra)
            | none => none
        | none => some (.TEnum name as_type, g, skip_key, new_parts, extra)
      | none => some (.TEnum name as_type, g, skip_key, new_parts, extra)
    | .TMemberReference classlike_name member_name =>
      match env.get_classconst_literal_value classlike_name member_name with
      | some literal_value =>
        match expandAtomic fuel env interner options literal_value g true new_parts
            extra with
        | none => none
        | some (lit', g', skip2, parts2, extra') =>
          some (.TMemberReference classlike_name member_name, g', skip2,
            parts2 ++ [lit'], extra')
      | none =>
        match env.get_class_constant_type classlike_name member_name with
        | some const_type =>
          match expandUnion fuel env interner options const_type g with
          | none => none
          | some (ct, g') =>
            some (.TMemberReference classlike_name member_name, g', true,
              new_parts ++ ct.types, extra)
        | none =>
          some (.TMemberReference classlike_name member_name, g, true,
            new_parts ++ [.TMixed], extra)
    | .TTypeAlias type_name type_params as_type =>
      if !options.expand_typenames then
        some (.TTypeAlias type_name type_params as_type, g, skip_key, new_parts, extra)
      else
        match env.type_definitions type_name with
        | none =>
          some (.TTypeAlias type_name type_params as_type, g, true,
            new_parts ++ [.TMixedWithFlags true false false false], extra)
        | some td =>
          let can_expand_type :=
            match td.newtype_file with
            | some type_file_path =>
              match options.file_path with
              | some expanding_file_path => decide (expanding_file_path = type_file_path)
              | none => options.expand_all_type_aliases
            | none => true
          if td.is_literal_string && options.expand_hakana_types then
            some (.TTypeAlias type_name type_params as_type, g, true,
              new_parts ++ [.TStringWithFlags false false true], extra)
          else if can_expand_type then
            let untemplated :=
              match type_params with
              | some tps =>
                env.replaceTemplates td.actual_type (buildAliasSubst td.template_types
                  tps)
              | none => td.actual_type
            match expandUnion fuel env interner options untemplated g with
            | none => none
            | some (ut, g') =>
              match (match type_params with
                     | none =>
                       attachAliasShape type_name td interner
                         options.expand_all_type_aliases ut.types g' extra
                     | some _ => some (ut.types, g', extra)) with
              | none => none
              | some (expanded, g'', extra') =>
                match expandOptUnions fuel env interner options type_params g'' with
                | none => none
                | some (type_params', g3) =>
                  some (.TTypeAlias type_name type_params' as_type, g3, true,
                    new_parts ++ expanded, extra')
          else
            match td.as_type with
            | some definition_as_type =>
              let dat :=
                match type_params with
                | some tps =>
                  env.replaceTemplates definition_as_type
                    (buildAsSubst td.template_types tps)
                | none => definition_as_type
              match expandUnion fuel env interner options dat g with
              | none => none
              | some (dat', g') =>
                match expandOptUnions fuel env interner options type_params g' with
                | none => none
                | some (type_params', g'') =>
                  some (.TTypeAlias type_name type_params' (some dat'), g'', skip_key,
                    new_parts, extra)
            | none =>
              match expandOptUnions fuel env interner options type_params g with
              | none => none
              | some (type_params', g') =>
                some (.TTypeAlias type_name type_params' as_type, g', skip_key,
                  new_parts, extra)
    | .TClassTypeConstant class_type member_name as_type =>
      match expandAtomic fuel env interner options class_type g false [] extra with
      | none => none
      | some (ct_mut, g', _, parts2, extra') =>
        let class_type' := match parts2 with
          | p :: _ => p
          | [] => ct_mut
        match class_type' with
        | .TNamedObject class_name _ obj_is_this =>
          match env.classlike_infos class_name with
          | none =>
            some (.TClassTypeConstant class_type' member_name as_type, g', true,
              new_parts ++ [.TMixedWithFlags true false false false], extra')
          | some classlike_storage =>
            match classlike_storage.type_constants member_name with
            | none =>
              some (.TClassTypeConstant class_type' member_name as_type, g', true,
                new_parts ++ [.TMixedWithFlags true false false false], extra')
            | some type_constant =>
              let is_this :=
                if obj_is_this then
                  match options.static_class_type with
                  | .Object obj =>
                    match obj with
                    | .TNamedObject new_this_name _ _ =>
                      if !(env.class_extends_or_implements new_this_name class_name)
                      then false else obj_is_this
                    | _ => obj_is_this
                  | _ => false
                else obj_is_this
              match type_constant, is_this with
              | .Concrete ty, _ =>
                match expandUnion fuel env interner options ty g' with
                | none => none
                | some (ty', g'') =>
                  let mapped := ty'.types.map fun v =>
                    match v with
                    | .TDict (some items) dp _ =>
                      .TDict (some items) dp (some (class_name, some member_name))
                    | v => v
                  some (.TClassTypeConstant class_type' member_name as_type, g'', true,
                    new_parts ++ mapped, extra')
              | .Abstract (some ty), false =>
                match expandUnion fuel env interner options ty g' with
                | none => none
                | some (ty', g'') =>
                  let mapped := ty'.types.map fun v =>
                    match v with
                    | .TDict (some items) dp _ =>
                      .TDict (some items) dp (some (class_name, some member_name))
                    | v => v
                  some (.TClassTypeConstant class_type' member_name as_type, g'', true,
                    new_parts ++ mapped, extra')
              | .Abstract (some ty), true =>
                match expandUnion fuel env interner options ty g' with
                | none => none
                | some (ty', g'') =>
                  some (.TClassTypeConstant class_type' member_name ty', g'', skip_key,
                    new_parts, extra')
              | .Abstract none, _ =>
                some (.TClassTypeConstant class_type' member_name as_type, g', skip_key,
                  new_parts, extra')
        | _ =>
          some (.TClassTypeConstant class_type' member_name as_type, g', true,
            new_parts ++ [.TMixedWithFlags true false false false], extra')
    | .TClosureAlias cid =>
      match getClosureFromId fuel env interner cid g with
      | none => none
      | some (some value, g') =>
        some (.TClosureAlias cid, g', true, new_parts ++ [value], extra)
      | some (none, g') => some (.TClosureAlias cid, g', skip_key, new_parts, extra)
    | a => some (a, g, skip_key, new_parts, extra)
end

/-! Helper lemmas about the list-backed set and map operations. -/

theorem mem_setInsert_self [DecidableEq α] (l : List α) (a : α) : a ∈ setInsert l a := by
  unfold setInsert
  split
  · assumption
  · simp

theorem mem_setInsert_of_mem [DecidableEq α] {l : List α} {b : α} (a : α) (h : b ∈ l) :
    b ∈ setInsert l a := by
  unfold setInsert
  split
  · exact h
  · exact List.mem_append_left _ h

theorem setExtend_cons [DecidableEq α] (l : List α) (x : α) (xs : List α) :
    setExtend l (x :: xs) = setExtend (setInsert l x) xs := rfl

theorem mem_setExtend_left [DecidableEq α] {l : List α} {a : α} (h : a ∈ l)
    (l2 : List α) : a ∈ setExtend l l2 := by
  induction l2 generalizing l with
  | nil => exact h
  | cons x xs ih => exact setExtend_cons l x xs ▸ ih (mem_setInsert_of_mem x h)

theorem assocLookup_cons [DecidableEq α] (k : α) (v : β) (l : List (α × β)) (a : α) :
    assocLookup ((k, v) :: l) a = if k = a then some v else assocLookup l a := by
  by_cases h : k = a <;> simp [assocLookup, List.find?, h]

theorem assocLookup_insert_none [DecidableEq α] {l : List (α × β)} {a k : α} (v : β)
    (hak : a ≠ k) (h : assocLookup l a = none) :
    assocLookup (assocInsert l k v) a = none := by
  induction l with
  | nil =>
    simp only [assocInsert, assocLookup_cons]
    rw [if_neg (fun e => hak e.symm)]
    rfl
  | cons p rest ih =>
    obtain ⟨k', v'⟩ := p
    rw [assocLookup_cons] at h
    by_cases hk' : k' = a
    · rw [if_pos hk'] at h; exact absurd h (by simp)
    · rw [if_neg hk'] at h
      unfold assocInsert
      by_cases hkk : k' = k
      · rw [if_pos hkk, assocLookup_cons, if_neg (fun e => hak e.symm)]
        exact h
      · rw [if_neg hkk, assocLookup_cons, if_neg hk']
        exact ih h

theorem assocExtend_cons [DecidableEq α] (l1 : List (α × β)) (k : α) (v : β)
    (rest : List (α × β)) :
    assocExtend l1 ((k, v) :: rest) = assocExtend (assocInsert l1 k v) rest := rfl

theorem assocLookup_extend_none [DecidableEq α] {l2 l1 : List (α × β)} {a : α}
    (h2 : assocLookup l2 a = none) (h1 : assocLookup l1 a = none) :
    assocLookup (assocExtend l1 l2) a = none := by
  induction l2 generalizing l1 with
  | nil => exact h1
  | cons p rest ih =>
    obtain ⟨k, v⟩ := p
    rw [assocLookup_cons] at h2
    by_cases hk : k = a
    · rw [if_pos hk] at h2; exact absurd h2 (by simp)
    · rw [if_neg hk] at h2
      rw [assocExtend_cons]
      exact ih h2 (assocLookup_insert_none v (fun e => hk e.symm) h1)

/-! Framing lemmas for the graph operations. -/

theorem add_node_kind (g : DataFlowGraph) (n : DataFlowNode) :
    (g.add_node n).kind = g.kind := by
  rcases n with ⟨nid, nkind⟩
  cases nkind <;> dsimp [DataFlowGraph.add_node] <;> try rfl
  split <;> try rfl
  split <;> rfl

theorem add_node_forward (g : DataFlowGraph) (n : DataFlowNode) :
    (g.add_node n).forward_edges = g.forward_edges := by
  rcases n with ⟨nid, nkind⟩
  cases nkind <;> dsimp [DataFlowGraph.add_node] <;> try rfl
  split <;> try rfl
  split <;> rfl

theorem add_node_backward (g : DataFlowGraph) (n : DataFlowNode) :
    (g.add_node n).backward_edges = g.backward_edges := by
  rcases n with ⟨nid, nkind⟩
  cases nkind <;> dsimp [DataFlowGraph.add_node] <;> try rfl
  split <;> try rfl
  split <;> rfl

theorem add_node_mixed (g : DataFlowGraph) (n : DataFlowNode) :
    (g.add_node n).mixed_source_counts = g.mixed_source_counts := by
  rcases n with ⟨nid, nkind⟩
  cases nkind <;> dsimp [DataFlowGraph.add_node] <;> try rfl
  split <;> try rfl
  split <;> rfl

theorem add_node_specialized_calls_of_mem (g : DataFlowGraph) (n : DataFlowNode)
    {uid : DataFlowNodeId} {key : FilePathT × Nat}
    (h : uid ∈ (g.add_node n).specialized_calls key) :
    uid ∈ g.specialized_calls key ∨
      (uid = n.id.unspecialize.1 ∧ key = n.id.unspecialize.2) := by
  rcases n with ⟨nid, nkind⟩
  cases nkind <;> dsimp [DataFlowGraph.add_node] at h <;> try exact Or.inl h
  revert h
  split
  · split
    · dsimp
      by_cases hk : key = nid.unspecialize.2
      · rw [if_pos hk]
        intro h
        unfold setInsert at h
        split at h
        · exact Or.inl h
        · rcases List.mem_append.mp h with h | h
          · exact Or.inl h
          · simp at h
            exact Or.inr ⟨h, hk⟩
      · rw [if_neg hk]
        exact fun h => Or.inl h
    · exact fun h => Or.inl h
  · exact fun h => Or.inl h

theorem add_node_specializations_of_mem (g : DataFlowGraph) (n : DataFlowNode)
    {uid : DataFlowNodeId} {key : FilePathT × Nat}
    (h : key ∈ g.specializations uid) : key ∈ (g.add_node n).specializations uid := by
  rcases n with ⟨nid, nkind⟩
  cases nkind <;> dsimp [DataFlowGraph.add_node] <;> try exact h
  split
  · split
    · dsimp
      by_cases hu : uid = nid.unspecialize.1
      · rw [if_pos hu]
        exact mem_setInsert_of_mem _ h
      · rw [if_neg hu]
        exact h
    · exact h
  · exact h

theorem add_node_specializations_self (g : DataFlowGraph) (nid : DataFlowNodeId)
    (pos : Option HPos) (hk : g.kind = .WholeProgram wk) :
    nid.unspecialize.2 ∈
      (g.add_node ⟨nid, .Vertex pos true⟩).specializations nid.unspecialize.1 := by
  dsimp [DataFlowGraph.add_node]
  rw [hk]
  dsimp
  rw [if_pos rfl]
  exact mem_setInsert_self _ _

theorem add_path_kind (g : DataFlowGraph) (a b : DataFlowNodeId) (k : PathKind)
    (ats rts : List SinkType) : (g.add_path a b k ats rts).kind = g.kind := by
  unfold DataFlowGraph.add_path
  split
  · rfl
  · split <;> rfl

theorem add_path_mixed (g : DataFlowGraph) (a b : DataFlowNodeId) (k : PathKind)
    (ats rts : List SinkType) :
    (g.add_path a b k ats rts).mixed_source_counts = g.mixed_source_counts := by
  unfold DataFlowGraph.add_path
  split
  · rfl
  · split <;> rfl

theorem add_path_specializations (g : DataFlowGraph) (a b : DataFlowNodeId)
    (k : PathKind) (ats rts : List SinkType) :
    (g.add_path a b k ats rts).specializations = g.specializations := by
  unfold DataFlowGraph.add_path
  split
  · rfl
  · split <;> rfl

theorem add_path_specialized_calls (g : DataFlowGraph) (a b : DataFlowNodeId)
    (k : PathKind) (ats rts : List SinkType) :
    (g.add_path a b k ats rts).specialized_calls = g.specialized_calls := by
  unfold DataFlowGraph.add_path
  split
  · rfl
  · split <;> rfl

theorem add_path_backward_wp (g : DataFlowGraph) (a b : DataFlowNodeId) (k : PathKind)
    (ats rts : List SinkType) (hk : g.kind = .WholeProgram wk) :
    (g.add_path a b k ats rts).backward_edges = g.backward_edges := by
  unfold DataFlowGraph.add_path
  rw [hk]
  split <;> rfl

theorem add_graph_kind (g h : DataFlowGraph) : (g.add_graph h).kind = g.kind := by
  unfold DataFlowGraph.add_graph
  split
  · rfl
  · split <;> rfl

theorem add_graph_specialized_calls (g h : DataFlowGraph) :
    (g.add_graph h).specialized_calls = g.specialized_calls := by
  unfold DataFlowGraph.add_graph
  split
  · rfl
  · split <;> rfl

theorem add_graph_backward_wp (g h : DataFlowGraph) (hk : g.kind = .WholeProgram wk) :
    (g.add_graph h).backward_edges = g.backward_edges := by
  unfold DataFlowGraph.add_graph
  split
  · rfl
  · rw [hk]; rfl

theorem add_graph_mixed_wp (g h : DataFlowGraph) (hk : g.kind = .WholeProgram wk) :
    (g.add_graph h).mixed_source_counts = g.mixed_source_counts := by
  unfold DataFlowGraph.add_graph
  split
  · rfl
  · rw [hk]; rfl

theorem add_graph_specializations_of_mem (g h : DataFlowGraph)
    {uid : DataFlowNodeId} {key : FilePathT × Nat} (hm : key ∈ g.specializations uid) :
    key ∈ (g.add_graph h).specializations uid := by
  unfold DataFlowGraph.add_graph
  split
  · exact hm
  · split
    · exact hm
    · exact mem_setExtend_left hm _

theorem mixedCountStep_kind (pos : String) (g : DataFlowGraph) (oid : DataFlowNodeId) :
    (mixedCountStep pos g oid).kind = g.kind := by
  unfold mixedCountStep
  split <;> rfl

theorem mixedCountStep_backward (pos : String) (g : DataFlowGraph)
    (oid : DataFlowNodeId) :
    (mixedCountStep pos g oid).backward_edges = g.backward_edges := by
  unfold mixedCountStep
  split <;> rfl

theorem mixed_fold_kind (pos : String) (l : List DataFlowNodeId) (g : DataFlowGraph) :
    (l.foldl (mixedCountStep pos) g).kind = g.kind := by
  induction l generalizing g with
  | nil => rfl
  | cons x xs ih => rw [List.foldl_cons, ih, mixedCountStep_kind]

theorem mixed_fold_backward (pos : String) (l : List DataFlowNodeId)
    (g : DataFlowGraph) :
    (l.foldl (mixedCountStep pos) g).backward_edges = g.backward_edges := by
  induction l generalizing g with
  | nil => rfl
  | cons x xs ih => rw [List.foldl_cons, ih, mixedCountStep_backward]

theorem add_mixed_data_kind (g : DataFlowGraph) (n : DataFlowNode) (pos : String) :
    (g.add_mixed_data n pos).kind = g.kind :=
  mixed_fold_kind pos _ g

theorem add_mixed_data_backward (g : DataFlowGraph) (n : DataFlowNode) (pos : String) :
    (g.add_mixed_data n pos).backward_edges = g.backward_edges :=
  mixed_fold_backward pos _ g

theorem reachable_kind_cast {g : DataFlowGraph} (hk : g.kind = k) : g.kind = k := hk

/-- C5 theorem. For every graph reachable from an empty graph by any sequence of
`add_node`, `add_path` and `add_graph` (merged graphs themselves so reachable), no
node's forward-edge map contains the node itself, and `add_path` with `from == to` is a
silent no-op. -/
theorem c5_no_self_loops :
    (∀ g : DataFlowGraph, Reachable g →
      ∀ id : DataFlowNodeId, assocLookup (g.forward_edges id) id = none) ∧
    (∀ (g : DataFlowGraph) (a : DataFlowNodeId) (k : PathKind)
      (ats rts : List SinkType), g.add_path a a k ats rts = g) := by
  constructor
  · intro g hg
    induction hg with
    | empty kind => intro id; rfl
    | node g n _ ih => intro id; rw [add_node_forward]; exact ih id
    | path g a b k ats rts _ ih =>
      intro id
      unfold DataFlowGraph.add_path
      split
      · exact ih id
      · rename_i hne
        split
        all_goals
          dsimp only
          by_cases hia : id = a
          · rw [if_pos hia]
            exact assocLookup_insert_none _ (by rw [hia]; exact hne) (ih id)
          · rw [if_neg hia]
            exact ih id
    | graph g h _ _ hk ihg ihh =>
      intro id
      unfold DataFlowGraph.add_graph
      rw [if_neg (by simp [hk])]
      split
      · exact assocLookup_extend_none (ihh id) (ihg id)
      · exact assocLookup_extend_none (ihh id) (ihg id)
  · intro g a k ats rts
    unfold DataFlowGraph.add_path
    rw [if_pos rfl]

/-- Witness for the C5 theorem at a concrete reachable graph: a self-edge request on a
fresh function-body graph is dropped, and the node has no self loop. -/
theorem c5_no_self_loops_witness :
    assocLookup
      (((DataFlowGraph.new .FunctionBody).add_path (.Synthetic 0) (.Synthetic 1)
        .Default [] []).forward_edges (.Synthetic 1)) (.Synthetic 1) = none ∧
    ((DataFlowGraph.new .FunctionBody).add_path (.Synthetic 2) (.Synthetic 2)
      .Default [] []) = DataFlowGraph.new .FunctionBody := by
  constructor
  · exact c5_no_self_loops.1 _
      (Reachable.path _ _ _ _ _ _ (Reachable.empty .FunctionBody)) (.Synthetic 1)
  · exact c5_no_self_loops.2 (DataFlowGraph.new .FunctionBody) (.Synthetic 2) .Default
      [] []

/-- C6 counterexample. Merging a whole-program graph that contains a specialized vertex
into an empty whole-program graph copies the `specializations` entry but not the
`specialized_calls` entry, so the two maps are not mutual inverses on the merged,
reachable graph. -/
theorem c6_counterexample :
    Reachable
      ((DataFlowGraph.new (.WholeProgram .Taint)).add_graph
        ((DataFlowGraph.new (.WholeProgram .Taint)).add_node
          ⟨.SpecializedCallTo (.Function 3) 4 5, .Vertex none true⟩)) ∧
    (4, 5) ∈
      ((DataFlowGraph.new (.WholeProgram .Taint)).add_graph
        ((DataFlowGraph.new (.WholeProgram .Taint)).add_node
          ⟨.SpecializedCallTo (.Function 3) 4 5, .Vertex none true⟩)).specializations
        (.CallTo (.Function 3)) ∧
    .CallTo (.Function 3) ∉
      ((DataFlowGraph.new (.WholeProgram .Taint)).add_graph
        ((DataFlowGraph.new (.WholeProgram .Taint)).add_node
          ⟨.SpecializedCallTo (.Function 3) 4 5, .Vertex none true⟩)).specialized_calls
        (4, 5) := by
  refine ⟨Reachable.graph _ _ (Reachable.empty _)
    (Reachable.node _ _ (Reachable.empty _)) ?_, ?_, ?_⟩
  · rw [add_node_kind]
  · decide
  · decide

/-- C6 amended theorem. In every graph reachable by `add_node`, `add_path` and
`add_graph` from an empty graph, `specialized_calls` is a one-sided inverse of
`specializations`: whenever `unspecialized_id ∈ specialized_calls[(file, offset)]`,
also `(file, offset) ∈ specializations[unspecialized_id]`. (The converse direction of
the claimed mutual-inverse property fails after `add_graph`, which merges
`specializations` but never `specialized_calls`; see the counterexample.) -/
theorem c6_one_sided_inverse (g : DataFlowGraph) (hg : Reachable g)
    (uid : DataFlowNodeId) (key : FilePathT × Nat)
    (hm : uid ∈ g.specialized_calls key) : key ∈ g.specializations uid := by
  induction hg with
  | empty kind => exact absurd hm (by simp [DataFlowGraph.new])
  | node g n _ ih =>
    rcases add_node_specialized_calls_of_mem g n hm with h | ⟨hu, hk⟩
    · exact add_node_specializations_of_mem g n (ih h)
    · subst hu; subst hk
      rcases n with ⟨nid, nkind⟩
      cases nkind <;> revert hm <;>
        dsimp [DataFlowGraph.add_node] <;> intro hm <;>
        first
        | (rename_i pos spec
           revert hm
           split
           · split
             · dsimp
               rw [if_pos rfl, if_pos rfl]
               intro hm
               exact mem_setInsert_self _ _
             · intro hm; exact ih hm
           · intro hm; exact ih hm)
        | exact ih hm
  | path g a b k ats rts _ ih =>
    rw [add_path_specialized_calls] at hm
    rw [add_path_specializations]
    exact ih hm
  | graph g h _ _ hk ihg ihh =>
    rw [add_graph_specialized_calls] at hm
    exact add_graph_specializations_of_mem g h (ihg hm)

/-- Witness for the C6 amended theorem at a concrete reachable graph with one
specialized vertex. -/
theorem c6_one_sided_inverse_witness :
    (4, 5) ∈
      (((DataFlowGraph.new (.WholeProgram .Taint)).add_node
        ⟨.SpecializedCallTo (.Function 3) 4 5, .Vertex none true⟩).specializations
        (.CallTo (.Function 3))) :=
  c6_one_sided_inverse _ (Reachable.node _ _ (Reachable.empty _))
    (.CallTo (.Function 3)) (4, 5) (by decide)

/-- C7 counterexample. `add_mixed_data` has no graph-kind guard: on a whole-program
graph holding a `CallTo` vertex, it records the position in `mixed_source_counts`, so a
reachable whole-program graph can have a nonempty `mixed_source_counts`, contradicting
the claim. -/
theorem c7_counterexample :
    ReachableM
      (((DataFlowGraph.new (.WholeProgram .Taint)).add_node
        ⟨.CallTo (.Function 7), .Vertex none false⟩).add_mixed_data
        ⟨.CallTo (.Function 7), .Vertex none false⟩ "pos0") ∧
    (((DataFlowGraph.new (.WholeProgram .Taint)).add_node
        ⟨.CallTo (.Function 7), .Vertex none false⟩).add_mixed_data
        ⟨.CallTo (.Function 7), .Vertex none false⟩ "pos0").kind =
      .WholeProgram .Taint ∧
    (((DataFlowGraph.new (.WholeProgram .Taint)).add_node
        ⟨.CallTo (.Function 7), .Vertex none false⟩).add_mixed_data
        ⟨.CallTo (.Function 7), .Vertex none false⟩ "pos0").mixed_source_counts
      (.CallTo (.Function 7)) = ["pos0"] := by
  refine ⟨ReachableM.mixed _ _ _ (ReachableM.node _ _ (ReachableM.empty _)), ?_, ?_⟩
  · decide
  · decide

/-- C7 amended theorem. A whole-program graph keeps `backward_edges` empty under every
operation including `add_mixed_data`, and keeps `mixed_source_counts` empty under
`add_node`, `add_path` and `add_graph`; `add_mixed_data` alone can populate
`mixed_source_counts` even on a whole-program graph (see the counterexample). -/
theorem c7_whole_program_empty_maps :
    (∀ g : DataFlowGraph, ReachableM g → ∀ wk, g.kind = .WholeProgram wk →
      ∀ id, g.backward_edges id = []) ∧
    (∀ g : DataFlowGraph, Reachable g → ∀ wk, g.kind = .WholeProgram wk →
      ∀ id, g.mixed_source_counts id = []) := by
  constructor
  · intro g hg
    induction hg with
    | empty kind => intro wk hk id; rfl
    | node g n _ ih =>
      intro wk hk id
      rw [add_node_backward]
      exact ih wk (by rw [← add_node_kind g n]; exact hk) id
    | path g a b k ats rts _ ih =>
      intro wk hk id
      have hk' : g.kind = .WholeProgram wk := by
        rw [← add_path_kind g a b k ats rts]; exact hk
      rw [add_path_backward_wp g a b k ats rts hk']
      exact ih wk hk' id
    | graph g h _ _ hkk ihg ihh =>
      intro wk hk id
      have hk' : g.kind = .WholeProgram wk := by
        rw [← add_graph_kind g h]; exact hk
      rw [add_graph_backward_wp g h hk']
      exact ihg wk hk' id
    | mixed g n pos _ ih =>
      intro wk hk id
      rw [add_mixed_data_backward]
      exact ih wk (by rw [← add_mixed_data_kind g n pos]; exact hk) id
  · intro g hg
    induction hg with
    | empty kind => intro wk hk id; rfl
    | node g n _ ih =>
      intro wk hk id
      rw [add_node_mixed]
      exact ih wk (by rw [← add_node_kind g n]; exact hk) id
    | path g a b k ats rts _ ih =>
      intro wk hk id
      rw [add_path_mixed]
      exact ih wk (by rw [← add_path_kind g a b k ats rts]; exact hk) id
    | graph g h _ _ hkk ihg ihh =>
      intro wk hk id
      have hk' : g.kind = .WholeProgram wk := by
        rw [← add_graph_kind g h]; exact hk
      rw [add_graph_mixed_wp g h hk']
      exact ihg wk hk' id

/-- Witness for the C7 amended theorem on a concrete whole-program graph built with all
four operations. -/
theorem c7_whole_program_empty_maps_witness :
    (((DataFlowGraph.new (.WholeProgram .Query)).add_node
      ⟨.CallTo (.Function 7), .Vertex none false⟩).add_mixed_data
      ⟨.CallTo (.Function 7), .Vertex none false⟩ "p").backward_edges
      (.CallTo (.Function 7)) = [] ∧
    ((DataFlowGraph.new (.WholeProgram .Query)).add_path (.Synthetic 0) (.Synthetic 1)
      .Default [] []).mixed_source_counts (.Synthetic 0) = [] := by
  constructor
  · exact c7_whole_program_empty_maps.1 _
      (ReachableM.mixed _ _ _ (ReachableM.node _ _ (ReachableM.empty _))) .Query
      (by decide) _
  · exact c7_whole_program_empty_maps.2 _
      (Reachable.path _ _ _ _ _ _ (Reachable.empty _)) .Query
      (by rw [add_path_kind]; rfl) _

/-! C4: the ignored-path behavior of `get_origin_node_ids`. -/

/-- A concrete function-body graph for C4: vertices `A`, `B`, `C`, with edges
`A → C` labeled `Default` and `B → C` labeled `Aggregate`, so `C`'s backward-edge set
stores `A` before `B`. -/
def c4g : DataFlowGraph :=
  (((((DataFlowGraph.new .FunctionBody).add_node
    ⟨.Synthetic 1, .Vertex none false⟩).add_node
    ⟨.Synthetic 2, .Vertex none false⟩).add_node
    ⟨.Synthetic 3, .Vertex none false⟩).add_path (.Synthetic 1) (.Synthetic 3)
    .Default [] []).add_path (.Synthetic 2) (.Synthetic 3) .Aggregate [] []

/-- C4 counterexample. Node `C` has an incoming backward edge (`B → C`) whose forward
path kind `Aggregate` is in `ignore_paths`, yet `get_origin_node_ids` still adds `C`'s
parent `A` (gathered from the backward edge stored before the ignored one) to the next
frontier and reports `A` — not `C` — as the origin, contradicting the claim that none of
the child's parents are added. -/
theorem c4_counterexample :
    c4g.backward_edges (.Synthetic 3) = [.Synthetic 1, .Synthetic 2] ∧
    (assocLookup (c4g.forward_edges (.Synthetic 2)) (.Synthetic 3)).map (·.kind) =
      some .Aggregate ∧
    c4g.get_origin_node_ids (.Synthetic 3) [.Aggregate] false = [.Synthetic 1] := by
  refine ⟨by decide, by decide, by decide⟩

/-- C4 amended theorem. When a child node has an incoming backward edge whose forward
path kind is in `ignore_paths`, the expansion of that child stops at the first such edge
in the stored backward-edge order: parents reached through that edge and every later
edge are not gathered, while parents from edges stored before it still are (so when the
ignored edge comes first, no parents are added at all). -/
theorem c4_ignored_edge_stops_gathering (g : DataFlowGraph)
    (ignore_paths : List PathKind) (visited : List DataFlowNodeId)
    (child : DataFlowNodeId) (l1 l2 : List DataFlowNodeId) (f : DataFlowNodeId)
    (p : DataFlowPath) (hlook : assocLookup (g.forward_edges f) child = some p)
    (hk : p.kind ∈ ignore_paths) (acc : List DataFlowNodeId) (hv : Bool) :
    gatherParents g ignore_paths visited child (l1 ++ f :: l2) acc hv =
      gatherParents g ignore_paths visited child l1 acc hv := by
  induction l1 generalizing acc hv with
  | nil =>
    rw [List.nil_append]
    show gatherParents g ignore_paths visited child (f :: l2) acc hv =
      gatherParents g ignore_paths visited child [] acc hv
    simp only [gatherParents, hlook]
    rw [if_pos (by simp [hk])]
  | cons x xs ih =>
    rw [List.cons_append]
    simp only [gatherParents]
    split
    · rfl
    · exact ih _ _

/-- Witness for the C4 amended theorem on the concrete graph: stopping at the ignored
edge `B → C` makes gathering over `[A, B]` agree with gathering over `[A]` alone. -/
theorem c4_ignored_edge_stops_gathering_witness :
    gatherParents c4g [.Aggregate] [.Synthetic 3] (.Synthetic 3)
        [.Synthetic 1, .Synthetic 2] [] false =
      gatherParents c4g [.Aggregate] [.Synthetic 3] (.Synthetic 3) [.Synthetic 1] []
        false :=
  c4_ignored_edge_stops_gathering c4g [.Aggregate] [.Synthetic 3] (.Synthetic 3)
    [.Synthetic 1] [] (.Synthetic 2) ⟨.Aggregate, [], []⟩ (by decide) (by decide) []
    false

/-! C1: the classification performed by `is_variable_used`. -/

theorem childNodesLoop_none_iff (P : IgnorePreds) (g : DataFlowGraph)
    (src : VariableUseNode) (visited : List DataFlowNodeId)
    (l : List (DataFlowNodeId × DataFlowPath)) :
    ∀ acc, childNodesLoop P g src visited l acc = none ↔
      ∃ e ∈ l, (g.sinks e.1).isSome := by
  induction l with
  | nil => intro acc; simp [childNodesLoop]
  | cons e rest ih =>
    intro acc
    obtain ⟨to_id, path⟩ := e
    by_cases hs : (g.sinks to_id).isSome
    · simp only [childNodesLoop]
      rw [if_pos hs]
      simp [hs]
    · simp only [childNodesLoop]
      rw [if_neg hs]
      split_ifs <;> rw [ih] <;> simp [hs]

theorem stepRound_none_iff (P : IgnorePreds) (g : DataFlowGraph) :
    ∀ (sources : List (DataFlowNodeId × VariableUseNode)) visited acc,
      stepRound P g sources visited acc = none ↔
        ∃ p ∈ sources, ∃ e ∈ g.forward_edges p.1, (g.sinks e.1).isSome := by
  intro sources
  induction sources with
  | nil => intro visited acc; simp [stepRound]
  | cons p rest ih =>
    intro visited acc
    obtain ⟨id, src⟩ := p
    simp only [stepRound]
    cases hc : get_variable_child_nodes P g id src (setInsert visited id) with
    | none =>
      simp only [reduceCtorEq, true_iff]
      rcases (childNodesLoop_none_iff P g src (setInsert visited id)
        (g.forward_edges id) []).mp hc with ⟨e, he, hes⟩
      exact ⟨(id, src), List.mem_cons_self _ _, e, he, hes⟩
    | some cs =>
      rw [ih]
      constructor
      · rintro ⟨q, hq, e, he, hes⟩
        exact ⟨q, List.mem_cons_of_mem _ hq, e, he, hes⟩
      · rintro ⟨q, hq, e, he, hes⟩
        rcases List.mem_cons.mp hq with hq | hq
        · subst hq
          exact absurd ((childNodesLoop_none_iff P g src (setInsert visited id)
            (g.forward_edges id) []).mpr ⟨e, he, hes⟩) (by simp [get_variable_child_nodes] at hc; simp [hc])
        · exact ⟨q, hq, e, he, hes⟩

/-- C1 theorem. The `is_variable_used` search classifies: `Used` whenever the current
frontier contains a node with an outgoing edge into `graph.sinks` (the round's step
returns the sink sentinel); `NeverReferenced` when the first round's new frontier is
empty and no sink was hit (the loop exits with `i == 1`); `ReferencedButNotUsed` when a
later round (`i ≥ 2`) drains without hitting a sink; and `ReferencedButNotUsed` when all
200 rounds are exhausted (`fuel = 0` at `i = 200`) without reaching a sink. -/
theorem c1_classification (P : IgnorePreds) (g : DataFlowGraph) (n : DataFlowNode)
    (k : VariableSourceKind) (pos : HPos) (pure_ : Bool)
    (hkind : n.kind = .VariableUseSource k pos pure_) :
    (∀ (fuel i : Nat) (visited : List DataFlowNodeId)
        (sources : List (DataFlowNodeId × VariableUseNode)),
        (∃ p ∈ sources, ∃ e ∈ g.forward_edges p.1, (g.sinks e.1).isSome) →
        isVariableUsedAux P g (fuel + 1) i visited sources = .Used) ∧
    (∀ v, stepRound P g [(n.id, ⟨pos, [], k⟩)] [] [] = some (v, []) →
        is_variable_used P g n = some .NeverReferenced) ∧
    (∀ (fuel i : Nat) (visited : List DataFlowNodeId), 2 ≤ i →
        isVariableUsedAux P g fuel i visited [] = .ReferencedButNotUsed) ∧
    (∀ (visited : List DataFlowNodeId)
        (sources : List (DataFlowNodeId × VariableUseNode)),
        isVariableUsedAux P g 0 200 visited sources = .ReferencedButNotUsed) := by
  refine ⟨?_, ?_, ?_, ?_⟩
  · intro fuel i visited sources hex
    have hne : sources.isEmpty = false := by
      rcases hex with ⟨p, hp, _⟩
      cases sources
      · cases hp
      · rfl
    have hstep : stepRound P g sources visited [] = none :=
      (stepRound_none_iff P g sources visited []).mpr hex
    simp [isVariableUsedAux, hne, hstep]
  · intro v hstep
    obtain ⟨nid, nkind⟩ := n
    dsimp at hkind
    subst hkind
    simp only [is_variable_used, VariableUseNode.ofNode, Option.map_some']
    dsimp at hstep
    show some (isVariableUsedAux P g 200 0 [] [(nid, ⟨pos, [], k⟩)]) =
      some VariableUsage.NeverReferenced
    rw [show (200 : Nat) = 199 + 1 from rfl, isVariableUsedAux, hstep]
    rfl
  · intro fuel i visited hi
    have h1 : i ≠ 1 := by omega
    cases fuel <;> simp [isVariableUsedAux, h1]
  · intro visited sources
    simp [isVariableUsedAux]

/-- Concrete graph for the C1 witness: a single variable-use source with no outgoing
edges. -/
def c1gNR : DataFlowGraph :=
  (DataFlowGraph.new .FunctionBody).add_node
    ⟨.Var 0 "x" (10, 12), .VariableUseSource .Default ⟨0, 10, 12, 1, 1, 0, 0⟩ true⟩

/-- Concrete graph for the C1 witness: the same source plus an edge into a sink. -/
def c1gU : DataFlowGraph :=
  ((c1gNR.add_node ⟨.Synthetic 9, .VariableUseSink ⟨0, 20, 22, 2, 2, 0, 0⟩⟩).add_path
    (.Var 0 "x" (10, 12)) (.Synthetic 9) .Default [] [])

/-- Witness for the C1 theorem: the edge-less source is classified `NeverReferenced`,
and a frontier touching a sink is classified `Used`. -/
theorem c1_classification_witness :
    is_variable_used ⟨fun _ _ _ => false, fun _ _ => false⟩ c1gNR
      ⟨.Var 0 "x" (10, 12), .VariableUseSource .Default ⟨0, 10, 12, 1, 1, 0, 0⟩ true⟩ =
      some .NeverReferenced ∧
    isVariableUsedAux ⟨fun _ _ _ => false, fun _ _ => false⟩ c1gU 200 0 []
      [(.Var 0 "x" (10, 12), ⟨⟨0, 10, 12, 1, 1, 0, 0⟩, [], .Default⟩)] = .Used := by
  constructor
  · exact (c1_classification _ c1gNR _ .Default ⟨0, 10, 12, 1, 1, 0, 0⟩ true rfl).2.1
      [.Var 0 "x" (10, 12)] (by decide)
  · exact (c1_classification _ c1gU
      ⟨.Var 0 "x" (10, 12), .VariableUseSource .Default ⟨0, 10, 12, 1, 1, 0, 0⟩ true⟩
      .Default ⟨0, 10, 12, 1, 1, 0, 0⟩ true rfl).1 199 0 [] _ (by decide)

/-! C8, C9, C10: the incremental diff engine. -/

theorem applyDiffShift_symbol (dm : List (Nat × Nat × Int × Int)) (i : Issue) :
    (applyDiffShift dm i).symbol = i.symbol := by
  unfold applyDiffShift
  split <;> rfl

theorem updateFileIssues_fst (d : CodebaseDiff) (inv : List (StrId × StrId))
    (fe : FilePathT × List Issue) : (updateFileIssues d inv fe).1 = fe.1 := by
  unfold updateFileIssues
  dsimp only
  split <;> rfl

theorem mem_updateFileIssues {d : CodebaseDiff} {inv : List (StrId × StrId)}
    {fe : FilePathT × List Issue} {i' : Issue}
    (h : i' ∈ (updateFileIssues d inv fe).2) :
    ∃ i ∈ fe.2, i.symbol ∉ inv ∧ i.symbol.1 ≠ fe.1 ∧
      (∀ r ∈ d.deletion_ranges_map fe.1,
        ¬(r.1 ≤ i.pos.start_offset ∧ i.pos.start_offset ≤ r.2)) ∧
      i' = (if (d.diff_map fe.1).isEmpty then i
            else applyDiffShift (d.diff_map fe.1) i) := by
  obtain ⟨f0, issues0⟩ := fe
  unfold updateFileIssues at h
  dsimp only at h
  by_cases h0 : (issues0.filter fun issue =>
      decide (issue.symbol ∉ inv) && decide (issue.symbol.1 ≠ f0)).isEmpty
  · rw [if_pos h0] at h
    rw [List.isEmpty_iff.mp h0] at h
    cases h
  · rw [if_neg h0] at h
    dsimp only at h
    have hsub : ∀ j, j ∈ (if (d.deletion_ranges_map f0).isEmpty then
        issues0.filter fun issue =>
          decide (issue.symbol ∉ inv) && decide (issue.symbol.1 ≠ f0)
      else (issues0.filter fun issue =>
          decide (issue.symbol ∉ inv) && decide (issue.symbol.1 ≠ f0)).filter
        fun issue => !((d.deletion_ranges_map f0).any fun r =>
          decide (r.1 ≤ issue.pos.start_offset) &&
            decide (issue.pos.start_offset ≤ r.2))) →
        j ∈ issues0 ∧ j.symbol ∉ inv ∧ j.symbol.1 ≠ f0 ∧
          ∀ r ∈ d.deletion_ranges_map f0,
            ¬(r.1 ≤ j.pos.start_offset ∧ j.pos.start_offset ≤ r.2) := by
      intro j hj
      by_cases hdr : (d.deletion_ranges_map f0).isEmpty
      · rw [if_pos hdr] at hj
        rcases List.mem_filter.mp hj with ⟨hmem, hpred⟩
        simp only [Bool.and_eq_true, decide_eq_true_eq] at hpred
        refine ⟨hmem, hpred.1, hpred.2, ?_⟩
        intro r hr
        rw [List.isEmpty_iff.mp hdr] at hr
        cases hr
      · rw [if_neg hdr] at hj
        rcases List.mem_filter.mp hj with ⟨hj1, hdel⟩
        rcases List.mem_filter.mp hj1 with ⟨hmem, hpred⟩
        simp only [Bool.and_eq_true, decide_eq_true_eq] at hpred
        refine ⟨hmem, hpred.1, hpred.2, ?_⟩
        intro r hr hcontra
        simp only [Bool.not_eq_true', List.any_eq_false, Bool.and_eq_true,
          decide_eq_true_eq, not_and] at hdel
        exact hdel r hr hcontra.1 hcontra.2
    by_cases hdm : (d.diff_map f0).isEmpty
    · rw [if_pos hdm] at h
      rcases hsub i' h with ⟨hmem, h1, h2, h3⟩
      exact ⟨i', hmem, h1, h2, h3, by rw [if_pos hdm]⟩
    · rw [if_neg hdm] at h
      rcases List.mem_map.mp h with ⟨j, hj, rfl⟩
      rcases hsub j hj with ⟨hmem, h1, h2, h3⟩
      exact ⟨j, hmem, h1, h2, h3, by rw [if_neg hdm]⟩

/-- C10 theorem. `update_issues_from_diff` unconditionally drops every cached issue
whose symbol's first component equals the id of the file it is stored under: for every
input (invalid set, diff maps, deletion ranges included), no surviving issue is
file-keyed. -/
theorem c10_file_keyed_issues_dropped (existing : List (FilePathT × List Issue))
    (diff : CodebaseDiff) (invalid : List (StrId × StrId)) (file : FilePathT)
    (issues' : List Issue)
    (hmem : (file, issues') ∈ update_issues_from_diff existing diff invalid)
    (i' : Issue) (hi : i' ∈ issues') : i'.symbol.1 ≠ file := by
  rcases List.mem_map.mp hmem with ⟨fe, hfe, heq⟩
  have hfile : file = fe.1 := by
    rw [← updateFileIssues_fst diff invalid fe, heq]
  have hsnd : i' ∈ (updateFileIssues diff invalid fe).2 := by
    rw [heq]; exact hi
  rcases mem_updateFileIssues hsnd with ⟨i, _, _, hne, _, hshift⟩
  subst hfile
  by_cases hdm : (diff.diff_map fe.1).isEmpty
  · rw [if_pos hdm] at hshift
    rw [hshift]
    exact hne
  · rw [if_neg hdm] at hshift
    rw [hshift, show (applyDiffShift (diff.diff_map fe.1) i).symbol = i.symbol from
      applyDiffShift_symbol _ i]
    exact hne

/-- Witness for the C10 theorem: an issue keyed by another symbol survives, and its
symbol differs from its file id. -/
theorem c10_file_keyed_issues_dropped_witness : ((2 : StrId), (0 : StrId)).1 ≠ 1 :=
  c10_file_keyed_issues_dropped [(1, [⟨0, (2, 0), {}⟩])] {} [] 1 [⟨0, (2, 0), {}⟩]
    (by decide) ⟨0, (2, 0), {}⟩ (by decide)

/-- The C8 counterexample diff: file 5 has deletion range `[10, 20]` and a `diff_map`
entry `(25, 35, -15, 0)`. -/
def c8Diff : CodebaseDiff :=
  { diff_map := fun f => if f = 5 then [(25, 35, -15, 0)] else []
    deletion_ranges_map := fun f => if f = 5 then [(10, 20)] else [] }

/-- The C8 counterexample issue: starts at offset 30 in file 5. -/
def c8Issue : Issue :=
  { symbol := (9, 2)
    pos := { file_path := 5, start_offset := 30, end_offset := 31, start_line := 3,
             end_line := 3 } }

/-- C8 counterexample. The issue at offset 30 survives the deletion pass (30 is outside
`[10, 20]`) but the subsequent shift by `-15` moves its start offset to 15, which lies
inside the recorded deletion range — so after `update_issues_from_diff` a surviving
issue does have its start offset within a deletion range of its file, contradicting the
claim. -/
theorem c8_counterexample :
    update_issues_from_diff [(5, [c8Issue])] c8Diff [] =
      [(5, [{ symbol := (9, 2),
              pos := { file_path := 5, start_offset := 15, end_offset := 16,
                       start_line := 3, end_line := 3 } }])] ∧
    c8Diff.deletion_ranges_map 5 = [(10, 20)] ∧ 10 ≤ 15 ∧ 15 ≤ 20 := by
  refine ⟨by decide, by decide, by decide, by decide⟩

/-- C8 amended theorem. Deletions are processed before shifts, and no issue is both
deleted and shifted: every surviving issue derives from exactly one cached issue whose
original (pre-shift) start offset is outside every deletion range of its file, the
survivor being that issue shifted by the first matching `diff_map` entry (or unchanged
when the file has no `diff_map` entries). A shift may still move a survivor's final
start offset into a deletion range (see the counterexample), so the outside-the-range
guarantee holds for pre-shift offsets. -/
theorem c8_deletions_before_shifts (existing : List (FilePathT × List Issue))
    (diff : CodebaseDiff) (invalid : List (StrId × StrId)) (file : FilePathT)
    (issues' : List Issue)
    (hmem : (file, issues') ∈ update_issues_from_diff existing diff invalid)
    (i' : Issue) (hi : i' ∈ issues') :
    ∃ issues, (file, issues) ∈ existing ∧ ∃ i ∈ issues,
      i.symbol ∉ invalid ∧ i.symbol.1 ≠ file ∧
      (∀ r ∈ diff.deletion_ranges_map file,
        ¬(r.1 ≤ i.pos.start_offset ∧ i.pos.start_offset ≤ r.2)) ∧
      i' = (if (diff.diff_map file).isEmpty then i
            else applyDiffShift (diff.diff_map file) i) := by
  rcases List.mem_map.mp hmem with ⟨fe, hfe, heq⟩
  have hfile : file = fe.1 := by
    rw [← updateFileIssues_fst diff invalid fe, heq]
  have hsnd : i' ∈ (updateFileIssues diff invalid fe).2 := by
    rw [heq]; exact hi
  rcases mem_updateFileIssues hsnd with ⟨i, hmem0, h1, h2, h3, h4⟩
  subst hfile
  exact ⟨fe.2, by rcases fe with ⟨a, b⟩; exact hfe, i, hmem0, h1, h2, h3, h4⟩

/-- Witness for the C8 amended theorem on a trivial diff: the surviving issue is its own
pre-image with no deletion range containing it. -/
theorem c8_deletions_before_shifts_witness :
    ∃ issues, ((1 : FilePathT), issues) ∈ [((1 : FilePathT), [(⟨0, (2, 0), {}⟩ : Issue)])] ∧
      ∃ i ∈ issues, i.symbol ∉ ([] : List (StrId × StrId)) ∧ i.symbol.1 ≠ 1 ∧
        (∀ r ∈ ({} : CodebaseDiff).deletion_ranges_map 1,
          ¬(r.1 ≤ i.pos.start_offset ∧ i.pos.start_offset ≤ r.2)) ∧
        (⟨0, (2, 0), {}⟩ : Issue) =
          (if (({} : CodebaseDiff).diff_map 1).isEmpty then i
           else applyDiffShift (({} : CodebaseDiff).diff_map 1) i) :=
  c8_deletions_before_shifts [(1, [⟨0, (2, 0), {}⟩])] {} [] 1 [⟨0, (2, 0), {}⟩]
    (by decide) ⟨0, (2, 0), {}⟩ (by decide)

/-- C9 counterexample. With `keep = {(7, "")}` and an invalid-symbols result whose pair
set does not contain `(7, "")` but whose partially-invalid set contains `7`,
`mark_safe_symbols_from_diff` does not add `7` to `safe_symbols`, contradicting the
claim that the keep symbol lands in `safe_symbols` whenever the invalid pair set lacks
it. -/
theorem c9_counterexample :
    (mark_safe_symbols_from_diff (some ([], [7])) { keep := [(7, StrIdEMPTY)] }
      []).safe_symbols = [] ∧
    ((7 : StrId), StrIdEMPTY) ∉ ([] : List (StrId × StrId)) := by
  refine ⟨by decide, by decide⟩

theorem markSafeStep_mono {inv : List (StrId × StrId)} {part : List StrId}
    (ca : CachedAnalysis) (ks : StrId × StrId) {foo : StrId}
    (h : foo ∈ ca.safe_symbols) : foo ∈ (markSafeStep inv part ca ks).safe_symbols := by
  unfold markSafeStep
  split_ifs <;> first | exact h | exact mem_setInsert_of_mem _ h

theorem keepFold_safe {inv : List (StrId × StrId)} {part : List StrId} {foo : StrId} :
    ∀ (l : List (StrId × StrId)) (ca : CachedAnalysis),
      (((foo, StrIdEMPTY) ∈ l ∧ (foo, StrIdEMPTY) ∉ inv ∧ foo ∉ part) ∨
        foo ∈ ca.safe_symbols) →
      foo ∈ (l.foldl (markSafeStep inv part) ca).safe_symbols := by
  intro l
  induction l with
  | nil =>
    intro ca h
    rcases h with ⟨h, _⟩ | h
    · cases h
    · exact h
  | cons x xs ih =>
    intro ca h
    rw [List.foldl_cons]
    rcases h with ⟨hmem, hinv, hpart⟩ | hca
    · rcases List.mem_cons.mp hmem with hx | hx
      · refine ih _ (Or.inr ?_)
        rw [← hx]
        unfold markSafeStep
        rw [if_pos hinv]
        dsimp only
        rw [if_pos rfl, if_pos hpart]
        exact mem_setInsert_self _ _
      · exact ih _ (Or.inl ⟨hx, hinv, hpart⟩)
    · exact ih _ (Or.inr (markSafeStep_mono _ _ hca))

/-- C9 amended theorem. For every diff whose keep set contains the memberless symbol
`(foo, "")`, and every invalid-symbols result whose pair set does not contain
`(foo, "")` **and whose partially-invalid set does not contain `foo`**,
`mark_safe_symbols_from_diff` puts `foo` into `safe_symbols`. -/
theorem c9_keep_symbol_safe (invalid : List (StrId × StrId)) (partInv : List StrId)
    (diff : CodebaseDiff) (issues : List (FilePathT × List Issue)) (foo : StrId)
    (hkeep : (foo, StrIdEMPTY) ∈ diff.keep) (hinv : (foo, StrIdEMPTY) ∉ invalid)
    (hpart : foo ∉ partInv) :
    foo ∈ (mark_safe_symbols_from_diff (some (invalid, partInv)) diff
      issues).safe_symbols := by
  unfold mark_safe_symbols_from_diff
  exact keepFold_safe diff.keep {} (Or.inl ⟨hkeep, hinv, hpart⟩)

/-- Witness for the C9 amended theorem. -/
theorem c9_keep_symbol_safe_witness :
    3 ∈ (mark_safe_symbols_from_diff (some ([], [])) { keep := [(3, StrIdEMPTY)] }
      []).safe_symbols :=
  c9_keep_symbol_safe [] [] { keep := [(3, StrIdEMPTY)] } [] 3 (by decide) (by decide)
    (by decide)

/-! C3: newtype aliases and `expand_all_type_aliases`. -/

/-- A newtype alias definition for C3: actual type `string`, defining file `tf`, no
abstract bound. -/
def c3td (tf : FilePathT) : TypeDefinitionInfo :=
  { actual_type := ⟨[.TString], []⟩, newtype_file := some tf }

/-- A codebase whose every type name resolves to the C3 newtype definition. -/
def c3env (tf : FilePathT) : CodebaseEnv :=
  { type_definitions := fun _ => some (c3td tf) }

/-- C3 counterexample. With `expand_all_type_aliases = true` but a `file_path` different
from the newtype's defining file (file 2 versus defining file 1), the alias is **not**
expanded — the union still holds the unexpanded `TTypeAlias` — contradicting the claim
that with `expand_all_type_aliases` true the alias expands regardless of which
`file_path` is supplied. -/
theorem c3_counterexample :
    (expandUnion 9 (c3env 1) none
        { file_path := some 2, expand_all_type_aliases := true }
        ⟨[.TTypeAlias 0 none none], []⟩ (DataFlowGraph.new .FunctionBody)).map
      (fun p => p.1.types) = some [.TTypeAlias 0 none none] := by
  rfl

/-- Expansion leaves a plain `string` union untouched, at every fuel. -/
theorem expandUnion_TString (fuel : Nat) (env : CodebaseEnv) (int : Option InternerT)
    (opts : TypeExpansionOptions) (pns : List DataFlowNode) (g : DataFlowGraph) :
    expandUnion fuel env int opts ⟨[.TString], pns⟩ g = some (⟨[.TString], pns⟩, g) := by
  match fuel with
  | 0 => rfl
  | 1 => rfl
  | 2 => rfl
  | (k + 3) => rfl

/-- The alias post-processing map is the identity on a single non-dict atomic. -/
theorem attachAliasShape_tstring (tn : StrId) (td : TypeDefinitionInfo)
    (int : Option InternerT) (ea : Bool) (g : DataFlowGraph)
    (extra : List DataFlowNode) :
    attachAliasShape tn td int ea [.TString] g extra = some ([.TString], g, extra) :=
  rfl

/-- Expanding absent type parameters is the identity, at every fuel. -/
theorem expandOptUnions_none (fuel : Nat) (env : CodebaseEnv) (int : Option InternerT)
    (opts : TypeExpansionOptions) (g : DataFlowGraph) :
    expandOptUnions fuel env int opts none g = some (none, g) := by
  cases fuel <;> rfl

/-- C3 amended theorem. A newtype alias expands to its actual type exactly when the
expansion is requested from the newtype's own defining file (`file_path = some tf`), or
when no `file_path` is supplied and `expand_all_type_aliases` is set; in particular,
with `expand_all_type_aliases = true` but a different `file_path` supplied, the alias
does not expand. -/
theorem c3_newtype_expansion (n : Nat) (t : StrId) (tf : FilePathT)
    (fp : Option FilePathT) (expandAll : Bool) (g : DataFlowGraph) :
    expandUnion (n + 3) (c3env tf) none
      { file_path := fp, expand_all_type_aliases := expandAll }
      ⟨[.TTypeAlias t none none], []⟩ g =
    some (⟨if fp = some tf ∨ (fp = none ∧ expandAll = true) then [.TString]
           else [.TTypeAlias t none none], []⟩, g) := by
  rcases fp with _ | fp'
  · cases expandAll
    · simp only [expandUnion, expandParts, expandAtomic, c3env, c3td,
        expandUnion_TString, attachAliasShape_tstring, expandOptUnions_none,
        TUnion.types, TUnion.parent_nodes, extendDataflowUniquely]
      simp
    · simp only [expandUnion, expandParts, expandAtomic, c3env, c3td,
        expandUnion_TString, attachAliasShape_tstring, expandOptUnions_none,
        TUnion.types, TUnion.parent_nodes, extendDataflowUniquely]
      simp
  · by_cases h : fp' = tf
    · have hd : decide (fp' = tf) = true := decide_eq_true h
      simp only [expandUnion, expandParts, expandAtomic, c3env, c3td, hd,
        expandUnion_TString, attachAliasShape_tstring, expandOptUnions_none,
        TUnion.types, TUnion.parent_nodes, extendDataflowUniquely]
      simp [h]
    · have hd : decide (fp' = tf) = false := decide_eq_false h
      simp only [expandUnion, expandParts, expandAtomic, c3env, c3td, hd,
        expandUnion_TString, attachAliasShape_tstring, expandOptUnions_none,
        TUnion.types, TUnion.parent_nodes, extendDataflowUniquely]
      simp [h]

/-- Witness instantiating the C3 amended theorem in its two directions: expansion from
the defining file, and no expansion from a foreign file even with
`expand_all_type_aliases`. -/
theorem c3_newtype_expansion_witness :
    expandUnion 3 (c3env 1) none
        { file_path := some 1, expand_all_type_aliases := false }
        ⟨[.TTypeAlias 0 none none], []⟩ (DataFlowGraph.new .FunctionBody) =
      some (⟨[.TString], []⟩, DataFlowGraph.new .FunctionBody) ∧
    expandUnion 3 (c3env 1) none
        { file_path := some 2, expand_all_type_aliases := true }
        ⟨[.TTypeAlias 0 none none], []⟩ (DataFlowGraph.new .FunctionBody) =
      some (⟨[.TTypeAlias 0 none none], []⟩, DataFlowGraph.new .FunctionBody) := by
  constructor
  · have h := c3_newtype_expansion 0 0 1 (some 1) false (DataFlowGraph.new .FunctionBody)
    simpa using h
  · have h := c3_newtype_expansion 0 0 1 (some 2) true (DataFlowGraph.new .FunctionBody)
    simpa using h

/-! C2: shape-field taint injection during alias expansion. -/

/-- The shape dict used as the C2 alias's actual type: one known item `'f' => string`. -/
def c2dictAtom : TAtomic :=
  .TDict (some [(.StringKey "f", false, ⟨[.TString], []⟩)]) none none

/-- The C2 alias definition: a shape whose `shape_field_taints` marks the given
string-keyed fields as taint sources. -/
def c2td (taints : List (String × HPos × List SinkType)) (loc : HPos) :
    TypeDefinitionInfo :=
  { actual_type := ⟨[c2dictAtom], []⟩
    shape_field_taints := some (taints.map fun p => (.StringKey p.1, p.2.1, p.2.2))
    location := loc }

/-- A codebase whose every type name resolves to the C2 tainted-shape definition. -/
def c2env (taints : List (String × HPos × List SinkType)) (loc : HPos) : CodebaseEnv :=
  { type_definitions := fun _ => some (c2td taints loc) }

/-- The per-field graph effect of taint injection: for each string-keyed tainted field,
one `field → shape` edge labeled `ArrayAssignment(ArrayValue, key)` and one `TaintSource`
field node with id `ShapeFieldAccess(alias, key)`. -/
def c2fieldStep (t : StrId) (g : DataFlowGraph) (p : String × HPos × List SinkType) :
    DataFlowGraph :=
  (g.add_path (.ShapeFieldAccess t p.1) (.TypeName t)
    (.ArrayAssignment .ArrayValue p.1) [] []).add_node
    ⟨.ShapeFieldAccess t p.1, .TaintSource (some p.2.1) p.2.2⟩

theorem injectFieldTaints_strings (t : StrId) (I : InternerT) (loc : HPos)
    (taints : List (String × HPos × List SinkType)) :
    ∀ g : DataFlowGraph,
      injectFieldTaints t I (DataFlowNode.getForType t loc)
        (taints.map fun p => (.StringKey p.1, p.2.1, p.2.2)) g =
      some (taints.foldl (c2fieldStep t) g) := by
  induction taints with
  | nil => intro g; rfl
  | cons p rest ih =>
    intro g
    obtain ⟨s, tp, ts⟩ := p
    simp only [List.map_cons, injectFieldTaints, DictKey.toStr, pathKeyOfDictKey,
      List.foldl_cons]
    exact ih _

theorem expandDictItems_nil (fuel : Nat) (env : CodebaseEnv) (int : Option InternerT)
    (opts : TypeExpansionOptions) (g : DataFlowGraph) :
    expandDictItems fuel env int opts [] g = some ([], g) := by
  cases fuel <;> rfl

theorem expandDictItems_c2 (fuel : Nat) (env : CodebaseEnv) (int : Option InternerT)
    (opts : TypeExpansionOptions) (g : DataFlowGraph) :
    expandDictItems fuel env int opts [(.StringKey "f", false, ⟨[.TString], []⟩)] g =
      some ([(.StringKey "f", false, ⟨[.TString], []⟩)], g) := by
  cases fuel with
  | zero => rfl
  | succ k =>
    simp only [expandDictItems, expandUnion_TString, expandDictItems_nil]

theorem expandAtomic_c2dict (fuel : Nat) (env : CodebaseEnv) (int : Option InternerT)
    (g : DataFlowGraph) (sk : Bool) (np : List TAtomic) (extra : List DataFlowNode) :
    expandAtomic fuel env int {} c2dictAtom g sk np extra =
      some (c2dictAtom, g, sk, np, extra) := by
  cases fuel with
  | zero => rfl
  | succ k =>
    simp only [c2dictAtom, expandAtomic, expandDictItems_c2]
    simp

theorem expandParts_nil (fuel : Nat) (env : CodebaseEnv) (int : Option InternerT)
    (opts : TypeExpansionOptions) (g : DataFlowGraph) (np : List TAtomic)
    (extra : List DataFlowNode) :
    expandParts fuel env int opts [] g np extra = some ([], g, np, extra) := by
  cases fuel <;> rfl

theorem expandParts_c2dict (fuel : Nat) (env : CodebaseEnv) (int : Option InternerT)
    (g : DataFlowGraph) (np : List TAtomic) (extra : List DataFlowNode) :
    expandParts fuel env int {} [c2dictAtom] g np extra =
      some ([(c2dictAtom, false)], g, np, extra) := by
  cases fuel with
  | zero => rfl
  | succ k =>
    simp only [expandParts, expandAtomic_c2dict, expandParts_nil]

theorem c2tdActual (taints : List (String × HPos × List SinkType)) (loc : HPos) :
    (c2td taints loc).actual_type = ⟨[c2dictAtom], []⟩ := rfl

theorem c2tdNewtype (taints : List (String × HPos × List SinkType)) (loc : HPos) :
    (c2td taints loc).newtype_file = none := rfl

theorem c2tdLiteral (taints : List (String × HPos × List SinkType)) (loc : HPos) :
    (c2td taints loc).is_literal_string = false := rfl

theorem c2tdAsType (taints : List (String × HPos × List SinkType)) (loc : HPos) :
    (c2td taints loc).as_type = none := rfl

/-- The post-expansion map on the C2 shape dict: injects one edge and one source node
per tainted field, adds the aggregate shape node, re-attaches the shape name, and emits
the shape node as an extra parent. -/
theorem attachOneAliasShape_c2 (t : StrId) (I : InternerT)
    (taints : List (String × HPos × List SinkType)) (loc : HPos) (g : DataFlowGraph)
    (extra : List DataFlowNode) :
    attachOneAliasShape t (c2td taints loc) (some I) false c2dictAtom g extra =
      some (.TDict (some [(.StringKey "f", false, ⟨[.TString], []⟩)]) none
              (some (t, none)),
            (taints.foldl (c2fieldStep t) g).add_node (DataFlowNode.getForType t loc),
            extra ++ [DataFlowNode.getForType t loc]) := by
  simp [attachOneAliasShape, c2dictAtom, c2td, injectFieldTaints_strings]

/-- C2 theorem. Expanding a type alias whose definition carries string-keyed
`shape_field_taints`, with an interner available, adds per tainted field one
`TaintSource` node with id `ShapeFieldAccess(alias, key)` and one edge from that field
node to the aggregate shape node labeled `ArrayAssignment(ArrayValue, key)`, adds the
single aggregate shape node, and carries the shape node out into the expanded union's
parent-node set; for one tainted field this is exactly two `add_node` calls and one
`add_path` call on the graph. -/
theorem c2_shape_taint_injection (n : Nat) (t : StrId) (I : InternerT)
    (taints : List (String × HPos × List SinkType)) (loc : HPos) (g : DataFlowGraph)
    (pns : List DataFlowNode) :
    expandUnion (n + 4) (c2env taints loc) (some I) {}
      ⟨[.TTypeAlias t none none], pns⟩ g =
    some (⟨[.TDict (some [(.StringKey "f", false, ⟨[.TString], []⟩)]) none
              (some (t, none))],
           extendDataflowUniquely pns [DataFlowNode.getForType t loc]⟩,
          (taints.foldl (c2fieldStep t) g).add_node
            (DataFlowNode.getForType t loc)) := by
  simp only [expandUnion, expandParts, expandAtomic, c2env, c2tdActual, c2tdNewtype,
    c2tdLiteral, c2tdAsType, TUnion.types, TUnion.parent_nodes, expandOptUnions_none,
    expandParts_c2dict, attachAliasShape, attachOneAliasShape_c2,
    extendDataflowUniquely]
  simp [attachAliasShape, attachOneAliasShape_c2]

end Hakana
